import Mathlib

/-!
Shallow embedding of `src/minesweeper/minesweeper.py`.

Conventions of the embedding:
* A board cell is an integer pair, as in the Python source (tuples of ints).
* Python `set` values become `Finset Cell`; iteration over a set (whose order
  Python leaves unspecified) is modelled by iterating over the list obtained
  from a fixed linear order on cells (`cellsList`).  Every loop so modelled
  has an order-independent net effect, so this is a faithful refinement.
* Python objects are mutable and aliased; the knowledge base is a `List` of
  sentence values and mutation through an alias is modelled by updating the
  value at the alias's index.  `list.remove(x)` removes the first element
  structurally equal (`__eq__`) to the current value of `x`; this is
  `eraseFirst`.  The `for` loops of `add_knowledge` iterate by index over a
  list that `check_knowledge` shortens, so the loop model (`runPass`) also
  advances an index while the list underneath it shrinks, reproducing the
  element-skipping behaviour of the source.
* Sentence counts are `ℤ` (they can be driven below zero in principle);
  scores in the shared `Cell_stat.all_cell` dictionary are `ℚ` and the
  dictionary itself is an insertion-ordered association list, as Python
  dicts are.  Division by zero is a Python error, so `make_random_move`
  returns an `Option`, `none` being the `ZeroDivisionError` outcome.
-/

abbrev Cell := ℤ × ℤ

/-- Linear (lexicographic) order used to enumerate the elements of a
`Finset Cell` when the source iterates over a Python set. -/
def cellLE (a b : Cell) : Prop :=
  a.1 < b.1 ∨ (a.1 = b.1 ∧ a.2 ≤ b.2)

instance : DecidableRel cellLE := by
  intro a b
  unfold cellLE
  infer_instance

instance : IsTrans Cell cellLE := by
  refine ⟨?_⟩
  intro a b c hab hbc
  unfold cellLE at *
  omega

instance : IsAntisymm Cell cellLE := by
  refine ⟨?_⟩
  intro a b hab hba
  unfold cellLE at *
  obtain ⟨x, y⟩ := a
  obtain ⟨u, v⟩ := b
  simp only [Prod.mk.injEq]
  simp only at hab hba
  omega

instance : IsTotal Cell cellLE := by
  refine ⟨?_⟩
  intro a b
  unfold cellLE
  omega

/-- Sorting a multiset of cells by insertion sort; insertion sort is
structurally recursive, and two permutations of each other sort to the same
list, so the lift is well defined. -/
def sortCells (m : Multiset Cell) : List Cell :=
  Quot.liftOn m (fun l => l.insertionSort cellLE)
    (fun l1 l2 h =>
      List.eq_of_perm_of_sorted
        (((l1.perm_insertionSort cellLE).trans h).trans
          (l2.perm_insertionSort cellLE).symm)
        (l1.sorted_insertionSort cellLE) (l2.sorted_insertionSort cellLE))

/-- Enumeration of a cell set in a fixed order (Python set-iteration order is
unspecified; all loops modelled with this have order-independent effect). -/
def cellsList (s : Finset Cell) : List Cell :=
  sortCells s.val

/-- `class Sentence`: a cell set together with a mine count.  `__eq__` is
structural, which the derived `DecidableEq` matches. -/
structure Sentence where
  cells : Finset Cell
  count : ℤ

instance : DecidableEq Sentence := fun a b =>
  decidable_of_iff (a.cells = b.cells ∧ a.count = b.count)
    (by cases a; cases b; simp)

/-- `Sentence.known_mines`: the cell set when the count is nonzero and equals
the number of cells, and Python `None` otherwise. -/
def Sentence.known_mines (s : Sentence) : Option (Finset Cell) :=
  if s.count ≠ 0 then
    if (s.cells.card : ℤ) = s.count then some s.cells else none
  else none

/-- `Sentence.known_safes`: the cell set when the count is zero, `None`
otherwise. -/
def Sentence.known_safes (s : Sentence) : Option (Finset Cell) :=
  if s.count = 0 then some s.cells else none

/-- `Sentence.mark_mine`: if the cell is present, remove it and decrement the
count; otherwise do nothing. -/
def Sentence.mark_mine (s : Sentence) (c : Cell) : Sentence :=
  if c ∈ s.cells then { cells := s.cells.erase c, count := s.count - 1 } else s

/-- `Sentence.mark_safe`: if the cell is present, remove it; the count is
unchanged. -/
def Sentence.mark_safe (s : Sentence) (c : Cell) : Sentence :=
  if c ∈ s.cells then { cells := s.cells.erase c, count := s.count } else s

/-- Python truthiness of the value returned by `known_mines`/`known_safes`:
`None` and the empty set are falsy. -/
def setTruthy : Option (Finset Cell) → Bool
  | none => false
  | some m => decide (m ≠ ∅)

/-- The mutable state of `class MinesweeperAI`. -/
structure MinesweeperAI where
  height : ℤ
  width : ℤ
  moves_made : Finset Cell
  mines : Finset Cell
  safes : Finset Cell
  knowledge : List Sentence

instance : DecidableEq MinesweeperAI := fun a b =>
  decidable_of_iff
    (a.height = b.height ∧ a.width = b.width ∧ a.moves_made = b.moves_made ∧
      a.mines = b.mines ∧ a.safes = b.safes ∧ a.knowledge = b.knowledge)
    (by cases a; cases b; simp)

/-- `MinesweeperAI.__init__(height, width)`. -/
def MinesweeperAI.init (height width : ℤ) : MinesweeperAI :=
  { height := height, width := width, moves_made := ∅, mines := ∅, safes := ∅,
    knowledge := [] }

/-- `MinesweeperAI.mark_mine`: record the mine and propagate into every
sentence of the knowledge base. -/
def MinesweeperAI.mark_mine (st : MinesweeperAI) (c : Cell) : MinesweeperAI :=
  { st with mines := insert c st.mines,
            knowledge := st.knowledge.map (fun s => s.mark_mine c) }

/-- `MinesweeperAI.mark_safe`: record the safe cell and propagate into every
sentence of the knowledge base. -/
def MinesweeperAI.mark_safe (st : MinesweeperAI) (c : Cell) : MinesweeperAI :=
  { st with safes := insert c st.safes,
            knowledge := st.knowledge.map (fun s => s.mark_safe c) }

/-- The neighbour set of a cell, bounded by the board edges and excluding the
cell itself (`MinesweeperAI.neighbourhood`, which only reads the
height/width fields). -/
def nbhd (height width : ℤ) (cell : Cell) : Finset Cell :=
  ((Finset.Icc (cell.1 - 1) (cell.1 + 1)) ×ˢ (Finset.Icc (cell.2 - 1) (cell.2 + 1))).filter
    (fun c => c ≠ cell ∧ 0 ≤ c.1 ∧ c.1 < height ∧ 0 ≤ c.2 ∧ c.2 < width)

/-- `MinesweeperAI.neighbourhood`. -/
def MinesweeperAI.neighbourhood (st : MinesweeperAI) (cell : Cell) : Finset Cell :=
  nbhd st.height st.width cell

/-- `list.remove(x)`: remove the first element equal to `x` (the Python call
raises `ValueError` when no element is equal; this total model then returns
the list unchanged, a case the interface never reaches). -/
def eraseFirst : List Sentence → Sentence → List Sentence
  | [], _ => []
  | a :: l, s => if a = s then l else a :: eraseFirst l s

/-- One iteration of the pairwise comparison loop of `check_knowledge` in the
case where the checked sentence is still the live list element at index `p`:
compare it with the element at index `k`, subtracting a strict subset from it
or subtracting it from a strict superset.  The two `if`s run in sequence on
the current values, as in the source. -/
def subsetStep (l : List Sentence) (p k : ℕ) : List Sentence :=
  match l.get? p, l.get? k with
  | some s, some s2 =>
    let l1 :=
      if s2.cells ⊂ s.cells then
        l.set p { cells := s.cells \ s2.cells, count := s.count - s2.count }
      else l
    match l1.get? p, l1.get? k with
    | some s3, some s4 =>
      if s3.cells ⊂ s4.cells then
        l1.set k { cells := s4.cells \ s3.cells, count := s4.count - s3.count }
      else l1
    | _, _ => l1
  | _, _ => l

/-- The pairwise comparison loop of `check_knowledge` when the checked
sentence was not removed (it iterates over every index of the list; no
element is removed inside this loop, so the length is stable). -/
def subsetLoop (l : List Sentence) (p : ℕ) : List Sentence :=
  (List.range l.length).foldl (fun acc k => subsetStep acc p k) l

/-- The pairwise comparison loop of `check_knowledge` as it behaves after the
checked sentence was removed from the list: the checked sentence then has an
empty cell set (and count `c`), so the subset branch never fires and the
superset branch subtracts `c` and the empty set from every sentence with a
nonempty cell set.  (If a structurally equal duplicate was removed instead of
the checked object itself, the object is still in the list with an empty cell
set and is likewise untouched.) -/
def subtractLoop (l : List Sentence) (c : ℤ) : List Sentence :=
  l.map (fun s2 =>
    if s2.cells ≠ ∅ then { cells := s2.cells \ (∅ : Finset Cell), count := s2.count - c }
    else s2)

/-- `MinesweeperAI.check_knowledge(sentence)` where `sentence` is the live
object at index `p` of the knowledge list.  Empty sentences are removed;
terminal sentences mark all their cells safe (count zero) or mines (count
equals size) and are removed — after the marking the object's value is
`⟨∅, 0⟩`, and `list.remove` erases the first element equal to that value.
Then the pairwise subset comparison runs regardless. -/
def MinesweeperAI.check_knowledge (st : MinesweeperAI) (p : ℕ) : MinesweeperAI :=
  match st.knowledge.get? p with
  | none => st
  | some s =>
    if s.cells = ∅ then
      { st with knowledge := subtractLoop (eraseFirst st.knowledge s) s.count }
    else if s.count = 0 then
      let st1 := (cellsList s.cells).foldl (fun a c => a.mark_safe c) st
      { st1 with
        knowledge := subtractLoop (eraseFirst st1.knowledge { cells := ∅, count := 0 }) 0 }
    else if (s.cells.card : ℤ) = s.count then
      let st1 := (cellsList s.cells).foldl (fun a c => a.mark_mine c) st
      { st1 with
        knowledge := subtractLoop (eraseFirst st1.knowledge { cells := ∅, count := 0 }) 0 }
    else
      { st with knowledge := subsetLoop st.knowledge p }

/-- One iteration of step 4 of `add_knowledge`: for the sentence at index
`idx`, if `known_mines()` is truthy mark every cell of a snapshot of it as a
mine, then re-read the sentence and do the same with `known_safes()`. -/
def MinesweeperAI.resolveStep (st : MinesweeperAI) (idx : ℕ) : MinesweeperAI :=
  match st.knowledge.get? idx with
  | none => st
  | some s =>
    let st1 :=
      if setTruthy s.known_mines then
        (cellsList (s.known_mines.getD ∅)).foldl (fun a c => a.mark_mine c) st
      else st
    match st1.knowledge.get? idx with
    | none => st1
    | some s2 =>
      if setTruthy s2.known_safes then
        (cellsList (s2.known_safes.getD ∅)).foldl (fun a c => a.mark_safe c) st1
      else st1

/-- The step-4 loop of `add_knowledge` (no removals, length stable). -/
def MinesweeperAI.resolvePass (st : MinesweeperAI) : ℕ → ℕ → MinesweeperAI
  | _, 0 => st
  | idx, fuel + 1 =>
    if idx < st.knowledge.length then
      (st.resolveStep idx).resolvePass (idx + 1) fuel
    else st

/-- One `for sentence in self.knowledge: self.check_knowledge(sentence)`
sweep: a Python list iterator advances an index while `check_knowledge`
may remove one element per call, which shifts later elements down and makes
the iterator skip them.  The list never grows during a sweep, so a fuel of
the initial length covers every iteration. -/
def MinesweeperAI.runPass (st : MinesweeperAI) : ℕ → ℕ → MinesweeperAI
  | _, 0 => st
  | idx, fuel + 1 =>
    if idx < st.knowledge.length then
      (st.check_knowledge idx).runPass (idx + 1) fuel
    else st

/-- Step 1 of `add_knowledge`: record the move. -/
def MinesweeperAI.record_move (st : MinesweeperAI) (cell : Cell) : MinesweeperAI :=
  { st with moves_made := insert cell st.moves_made }

/-- Step 2 of `add_knowledge`: mark the revealed cell safe unless already
known safe. -/
def MinesweeperAI.ensure_safe (st : MinesweeperAI) (cell : Cell) : MinesweeperAI :=
  if cell ∈ st.safes then st else st.mark_safe cell

/-- Step 3 of `add_knowledge`: the sentence built for the revealed cell —
its neighbours minus the known safes, with the revealed count; then each
cell already known to be a mine is immediately marked inside the new
sentence (removing it and decrementing the count). -/
def MinesweeperAI.new_sentence (st : MinesweeperAI) (cell : Cell) (count : ℤ) : Sentence :=
  let cells0 := (st.neighbourhood cell) \ st.safes
  (cellsList cells0).foldl
    (fun s c => if c ∈ st.mines then s.mark_mine c else s)
    { cells := cells0, count := count }

/-- One full `for sentence in self.knowledge: self.check_knowledge(sentence)`
sweep, started at index 0 with the list's current length as fuel. -/
def MinesweeperAI.sweep (st : MinesweeperAI) : MinesweeperAI :=
  st.runPass 0 st.knowledge.length

/-- The resolution part of one turn, as run at the end of `add_knowledge`:
`check_knowledge` on the newly inserted sentence (the live object at index
`p`), then two full sweeps over the knowledge list. -/
def MinesweeperAI.turn_passes (st : MinesweeperAI) (p : ℕ) : MinesweeperAI :=
  ((st.check_knowledge p).sweep).sweep

/-- Step 3 of `add_knowledge`: append the newly built sentence. -/
def MinesweeperAI.append_new (st : MinesweeperAI) (cell : Cell) (count : ℤ) : MinesweeperAI :=
  { st with knowledge := st.knowledge ++ [st.new_sentence cell count] }

/-- Step 4 of `add_knowledge`: the resolve loop over the whole list. -/
def MinesweeperAI.resolve_all (st : MinesweeperAI) : MinesweeperAI :=
  st.resolvePass 0 st.knowledge.length

/-- Step 5 of `add_knowledge`: the turn's passes, starting with
`check_knowledge` on the newly appended sentence (the last list element). -/
def MinesweeperAI.final_passes (st : MinesweeperAI) : MinesweeperAI :=
  st.turn_passes (st.knowledge.length - 1)

/-- `MinesweeperAI.add_knowledge(cell, count)`. -/
def MinesweeperAI.add_knowledge (st : MinesweeperAI) (cell : Cell) (count : ℤ) : MinesweeperAI :=
  ((((st.record_move cell).ensure_safe cell).append_new cell count).resolve_all).final_passes

/-- `MinesweeperAI.make_safe_move`: some cell known safe and not yet played
(Python iterates a set and returns the first element; which one is
unspecified, so the fixed enumeration order is used), or `None`. -/
def MinesweeperAI.make_safe_move (st : MinesweeperAI) : Option Cell :=
  (cellsList (st.safes \ st.moves_made)).head?

/-- The class-level dictionary `Cell_stat.all_cell`, shared by every
`MinesweeperAI` instance and never reset: an insertion-ordered association
list from cells to accumulated scores. -/
abbrev Cell_stat.AllCell := List (Cell × ℚ)

/-- Association-list lookup (first entry with the given key, as for a Python
dict — keys are in fact unique there). -/
def lookupQ : Cell_stat.AllCell → Cell → Option ℚ
  | [], _ => none
  | e :: l, c => if e.1 = c then some e.2 else lookupQ l c

/-- `Cell_stat.all_cell[cell] = p` / `+= p`: update the entry in place if the
key is present (position preserved), otherwise append a new entry at the
end, as Python dict insertion does. -/
def Cell_stat.update (m : Cell_stat.AllCell) (c : Cell) (p : ℚ) : Cell_stat.AllCell :=
  if (lookupQ m c).isSome then
    m.map (fun e => if e.1 = c then (e.1, e.2 + p) else e)
  else m ++ [(c, p)]

/-- The scoring loop of `make_random_move` over a sentence list: for every
sentence, add `count / |cells|` to the accumulated score of each of its
cells. -/
def scoreFold (l : List Sentence) (m : Cell_stat.AllCell) : Cell_stat.AllCell :=
  l.foldl
    (fun acc s =>
      (cellsList s.cells).foldl
        (fun a c => Cell_stat.update a c ((s.count : ℚ) / (s.cells.card : ℚ)))
        acc)
    m

/-- The scoring loop of `make_random_move`, applied to the live knowledge. -/
def MinesweeperAI.scorePass (st : MinesweeperAI) (m : Cell_stat.AllCell) : Cell_stat.AllCell :=
  scoreFold st.knowledge m

/-- `min(all_cell, key=all_cell.get)`: the first key attaining the minimal
value, scanning in insertion order. -/
def pythonMin (m : Cell_stat.AllCell) : Option Cell :=
  match m with
  | [] => none
  | e :: rest => some ((rest.foldl (fun b e2 => if e2.2 < b.2 then e2 else b) e).1)

/-- The fallback scan of `make_random_move`: the first cell in row-major
order not in `mines ∪ moves_made`, if any. -/
def MinesweeperAI.row_major_move (st : MinesweeperAI) : Option Cell :=
  ((List.range st.height.toNat).flatMap
      (fun i => (List.range st.width.toNat).map (fun j => ((i : ℤ), (j : ℤ))))).find?
    (fun c => decide (c ∉ st.mines ∪ st.moves_made))

/-- `MinesweeperAI.make_random_move`, with the shared score dictionary as
explicit state.  The scoring loop divides by `len(sentence.cells)`, so a
sentence with an empty cell set makes the call raise `ZeroDivisionError`,
modelled as `none`.  Otherwise the result is the minimal-score key of the
accumulated dictionary when it is nonempty, and the row-major fallback when
it is empty, paired with the updated dictionary. -/
def MinesweeperAI.make_random_move (st : MinesweeperAI) (m : Cell_stat.AllCell) :
    Option (Option Cell × Cell_stat.AllCell) :=
  if st.knowledge.all (fun s => decide (s.cells ≠ ∅)) then
    let m1 := st.scorePass m
    if m1 ≠ [] then some (pythonMin m1, m1)
    else some (st.row_major_move, m1)
  else none

/-- The board state of `class Minesweeper`. -/
structure Minesweeper where
  height : ℕ
  width : ℕ
  board : Cell → Bool
  mines : Finset Cell
  mines_found : Finset Cell

/-- The mine-placement loop of `Minesweeper.__init__`: while the mine set has
not reached the requested size, draw a random in-bounds cell, adding it to
the board and the mine set if the board slot is still free.  The random
stream is an explicit list of draws; an exhausted list models the (almost
surely avoided) case of the randomness never completing the placement. -/
def Minesweeper.place_mines (target : ℕ) : List Cell → Minesweeper → Minesweeper
  | [], st => st
  | d :: rest, st =>
    if st.mines.card = target then st
    else if st.board d then Minesweeper.place_mines target rest st
    else
      Minesweeper.place_mines target rest
        { st with mines := insert d st.mines,
                  board := fun c => if c = d then true else st.board c }

/-- `Minesweeper.__init__(height, width, mines)` with the random draws made
explicit. -/
def Minesweeper.init (height width mines : ℕ) (draws : List Cell) : Minesweeper :=
  Minesweeper.place_mines mines draws
    { height := height, width := width, board := fun _ => false, mines := ∅,
      mines_found := ∅ }

/-- `Minesweeper.is_mine(cell)`: reads the board grid. -/
def Minesweeper.is_mine (st : Minesweeper) (cell : Cell) : Bool :=
  st.board cell

/-- `Minesweeper.nearby_mines(cell)`: the number of in-bounds board cells
within one row and column (excluding the cell itself) holding a mine. -/
def Minesweeper.nearby_mines (st : Minesweeper) (cell : Cell) : ℕ :=
  (((Finset.Icc (cell.1 - 1) (cell.1 + 1)) ×ˢ (Finset.Icc (cell.2 - 1) (cell.2 + 1))).filter
    (fun c => c ≠ cell ∧ 0 ≤ c.1 ∧ c.1 < (st.height : ℤ) ∧ 0 ≤ c.2 ∧ c.2 < (st.width : ℤ)
      ∧ st.board c)).card

/-- `Minesweeper.won()`. -/
def Minesweeper.won (st : Minesweeper) : Bool :=
  decide (st.mines_found = st.mines)

/-- The operations of the `Minesweeper` class that are available after
construction, as state transitions (each method only reads the state). -/
inductive MsOp where
  | print_op : MsOp
  | is_mine_op : Cell → MsOp
  | nearby_mines_op : Cell → MsOp
  | neighbourhood_op : Cell → MsOp
  | won_op : MsOp

/-- The state transition of each post-construction `Minesweeper` method: none
of them assigns a field, so each leaves the state as it was. -/
def Minesweeper.step (st : Minesweeper) : MsOp → Minesweeper
  | .print_op => st
  | .is_mine_op _ => st
  | .nearby_mines_op _ => st
  | .neighbourhood_op _ => st
  | .won_op => st

/-- A sequence of turns: fold `add_knowledge` over revealed (cell, count)
pairs. -/
def runTurns (st : MinesweeperAI) (ts : List (Cell × ℤ)) : MinesweeperAI :=
  ts.foldl (fun a t => a.add_knowledge t.1 t.2) st

/-- The turns of a game are consistent with a fixed board whose mine set is
`M`: every revealed cell is not a mine and its reported count is the number
of its neighbours (for the given board dimensions) lying in `M`. -/
def consistentTurns (M : Finset Cell) (height width : ℤ) (ts : List (Cell × ℤ)) : Prop :=
  ∀ t ∈ ts, t.1 ∉ M ∧ t.2 = (((nbhd height width t.1) ∩ M).card : ℤ)

/-- A sentence is true of the board with mine set `M`: exactly `count` of its
cells are mines. -/
def SentenceTrue (M : Finset Cell) (s : Sentence) : Prop :=
  s.count = ((s.cells ∩ M).card : ℤ)

/-- Semantic soundness of a knowledge-base state with respect to the board
mine set `M`: every active sentence is true of the board, every confirmed
mine is a mine, and no confirmed safe cell is a mine. -/
def Sound (M : Finset Cell) (st : MinesweeperAI) : Prop :=
  (∀ s ∈ st.knowledge, SentenceTrue M s) ∧ st.mines ⊆ M ∧ ∀ c ∈ st.safes, c ∉ M

/-- The knowledge-base operations reachable from the public interface of
`MinesweeperAI`. -/
inductive KBOp where
  | add_op : Cell → ℤ → KBOp
  | mine_op : Cell → KBOp
  | safe_op : Cell → KBOp
  | safe_move_op : KBOp
  | random_move_op : KBOp

/-- Effect of each knowledge-base operation on the agent state
(`make_safe_move` only reads the state; `make_random_move` reads it and
writes only the shared score dictionary). -/
def applyOp (st : MinesweeperAI) : KBOp → MinesweeperAI
  | .add_op c n => st.add_knowledge c n
  | .mine_op c => st.mark_mine c
  | .safe_op c => st.mark_safe c
  | .safe_move_op => st
  | .random_move_op => st

/-- Consistency of one operation's input with the fixed board `M`:
`add_knowledge` receives a non-mine cell with its true neighbour-mine count,
`mark_mine` a true mine, `mark_safe` a true non-mine. -/
def opConsistent (M : Finset Cell) (height width : ℤ) : KBOp → Prop
  | .add_op c n => c ∉ M ∧ n = (((nbhd height width c) ∩ M).card : ℤ)
  | .mine_op c => c ∈ M
  | .safe_op c => c ∉ M
  | .safe_move_op => True
  | .random_move_op => True

instance (M : Finset Cell) (height width : ℤ) (op : KBOp) :
    Decidable (opConsistent M height width op) := by
  cases op <;> unfold opConsistent <;> infer_instance

/-- The per-call score of a cell as the specification defines it: the sum,
over the given sentences containing the cell, of `count / |cells|`. -/
def scoreOf (l : List Sentence) (c : Cell) : ℚ :=
  (l.map (fun s => if c ∈ s.cells then (s.count : ℚ) / (s.cells.card : ℚ) else 0)).sum

/-- Spec-side definition for the random-move claim: the score of a cell as
the sum over active statements containing it of `count / |cells|`. -/
def specScore (st : MinesweeperAI) (c : Cell) : ℚ :=
  scoreOf st.knowledge c

/-- One association list extends another: the keys of the first are an
initial segment of the keys of the second, and every looked-up value only
grows. -/
def score_extends (m m2 : Cell_stat.AllCell) : Prop :=
  (∃ ext, m2.map Prod.fst = m.map Prod.fst ++ ext) ∧
  ∀ c v, lookupQ m c = some v → ∃ v2, lookupQ m2 c = some v2 ∧ v ≤ v2

/-- Statement A of the subset-derivation scenario: cells 1, 2, 3 of a 1-row
board, count 2. -/
def sentA : Sentence := ⟨({(0, 1), (0, 2), (0, 3)} : Finset Cell), 2⟩

/-- Statement B of the subset-derivation scenario: cells 1, 2, count 1. -/
def sentB : Sentence := ⟨({(0, 1), (0, 2)} : Finset Cell), 1⟩

/-- An additional active statement asserting cells 3 and 4 hold no mine. -/
def sentD : Sentence := ⟨({(0, 3), (0, 4)} : Finset Cell), 0⟩

/-- A knowledge base whose active statements are exactly B and A (A the most
recently inserted), over arbitrary dimensions and confirmed-fact sets. -/
def c1kb (height width : ℤ) (mv mn sf : Finset Cell) : MinesweeperAI :=
  ⟨height, width, mv, mn, sf, [sentB, sentA]⟩

/-- A knowledge base whose active statements include B and A but also the
statement D: the interference scenario refuting the unrestricted claim. -/
def c1cex : MinesweeperAI := ⟨1, 9, ∅, ∅, ∅, [sentD, sentB, sentA]⟩

/-- First game of the stale-score scenario: a 1×4 game after
`add_knowledge((0,1), 1)`, leaving one unresolved two-cell statement. -/
def c5g1 : MinesweeperAI := (MinesweeperAI.init 1 4).add_knowledge (0, 1) 1

/-- The shared score dictionary after a completed `make_random_move` call on
the first game (it starts empty at process start). -/
def c5map : Cell_stat.AllCell := c5g1.scorePass []

/-- Second game of the stale-score scenario: a fresh 1×4 game after
`add_knowledge((0,0), 0)`, whose knowledge resolves away completely. -/
def c5g2 : MinesweeperAI := (MinesweeperAI.init 1 4).add_knowledge (0, 0) 0

/-- Mine set of the 4×4 board on which the inference engine is driven into a
state with an empty active statement. -/
def c6mines : Finset Cell := {(0, 0), (0, 1), (1, 2)}

/-- Six safe moves on the 4×4 board with mines `c6mines`, each paired with
its true neighbour-mine count. -/
def c6turns : List (Cell × ℤ) :=
  [((2, 1), 1), ((1, 1), 3), ((3, 3), 0), ((2, 2), 1), ((1, 0), 2), ((2, 0), 0)]

/-- State after turn 1 of the 4×4 run. -/
def c6s1 : MinesweeperAI :=
  ⟨4, 4, {(2, 1)}, ∅, {(2, 1)},
   [⟨({(1, 0), (1, 1), (1, 2), (2, 0), (2, 2), (3, 0), (3, 1), (3, 2)} : Finset Cell), 1⟩]⟩

/-- State after turn 2 of the 4×4 run. -/
def c6s2 : MinesweeperAI :=
  ⟨4, 4, {(1, 1), (2, 1)}, ∅, {(1, 1), (2, 1)},
   [⟨({(1, 0), (1, 2), (2, 0), (2, 2), (3, 0), (3, 1), (3, 2)} : Finset Cell), 1⟩,
    ⟨({(0, 0), (0, 1), (0, 2), (1, 0), (1, 2), (2, 0), (2, 2)} : Finset Cell), 3⟩]⟩

/-- State after turn 3 of the 4×4 run. -/
def c6s3 : MinesweeperAI :=
  ⟨4, 4, {(1, 1), (2, 1), (3, 3)}, ∅, {(1, 1), (2, 1), (2, 2), (2, 3), (3, 2), (3, 3)},
   [⟨({(1, 0), (1, 2), (2, 0), (3, 0), (3, 1)} : Finset Cell), 1⟩,
    ⟨({(0, 0), (0, 1), (0, 2), (1, 0), (1, 2), (2, 0)} : Finset Cell), 3⟩]⟩

/-- State after turn 4 of the 4×4 run. -/
def c6s4 : MinesweeperAI :=
  ⟨4, 4, {(1, 1), (2, 1), (2, 2), (3, 3)}, ∅, {(1, 1), (2, 1), (2, 2), (2, 3), (3, 2), (3, 3)},
   [⟨({(1, 0), (1, 2), (2, 0), (3, 0), (3, 1)} : Finset Cell), 1⟩,
    ⟨({(0, 0), (0, 1), (0, 2), (1, 0), (1, 2), (2, 0)} : Finset Cell), 3⟩,
    ⟨({(1, 2), (1, 3), (3, 1)} : Finset Cell), 1⟩]⟩

/-- State after turn 5 of the 4×4 run. -/
def c6s5 : MinesweeperAI :=
  ⟨4, 4, {(1, 0), (1, 1), (2, 1), (2, 2), (3, 3)}, ∅,
   {(1, 0), (1, 1), (2, 1), (2, 2), (2, 3), (3, 2), (3, 3)},
   [⟨({(1, 2), (2, 0), (3, 0), (3, 1)} : Finset Cell), 1⟩,
    ⟨({(0, 2), (1, 2)} : Finset Cell), 1⟩,
    ⟨({(1, 2), (1, 3), (3, 1)} : Finset Cell), 1⟩,
    ⟨({(0, 0), (0, 1), (2, 0)} : Finset Cell), 2⟩]⟩

/-- State after turn 6 of the 4×4 run: one empty sentence is still active. -/
def c6s6 : MinesweeperAI :=
  ⟨4, 4, {(1, 0), (1, 1), (2, 0), (2, 1), (2, 2), (3, 3)}, {(0, 0), (0, 1), (1, 2)},
   {(0, 2), (1, 0), (1, 1), (1, 3), (2, 0), (2, 1), (2, 2), (2, 3), (3, 0), (3, 1), (3, 2),
    (3, 3)},
   [⟨(∅ : Finset Cell), 0⟩]⟩

/-! General facts about the set-enumeration used by the loop models. -/

theorem mem_sortCells {m : Multiset Cell} {c : Cell} : c ∈ sortCells m ↔ c ∈ m := by
  induction m using Quot.inductionOn with
  | h l => exact (l.perm_insertionSort cellLE).mem_iff

theorem sortCells_nodup {m : Multiset Cell} (h : m.Nodup) : (sortCells m).Nodup := by
  induction m using Quot.inductionOn with
  | h l => exact ((l.perm_insertionSort cellLE).nodup_iff).2 h

theorem mem_cellsList {s : Finset Cell} {c : Cell} : c ∈ cellsList s ↔ c ∈ s :=
  mem_sortCells

theorem cellsList_nodup (s : Finset Cell) : (cellsList s).Nodup :=
  sortCells_nodup s.nodup

theorem cellsList_toFinset (s : Finset Cell) : (cellsList s).toFinset = s := by
  ext c
  simp [mem_cellsList]

/-- C2 (confirmed).  Determinism of terminal statements: `known_safes`
returns exactly the cell set when the count is zero and `None` otherwise;
`known_mines` returns exactly the cell set when the count is positive and
equals the number of cells, and `None` otherwise (the code tests
`count ≠ 0 ∧ |cells| = count`, which is equivalent because a cell count is
never negative). -/
theorem C2_terminal_statements (s : Sentence) :
    s.known_safes = (if s.count = 0 then some s.cells else none) ∧
    s.known_mines =
      (if 0 < s.count ∧ (s.cells.card : ℤ) = s.count then some s.cells else none) := by
  constructor
  · rfl
  · unfold Sentence.known_mines
    split_ifs with h1 h2 h3 h4 <;> first | rfl | omega

theorem Sentence.mark_mine_self_idem (s : Sentence) (c : Cell) :
    (s.mark_mine c).mark_mine c = s.mark_mine c := by
  unfold Sentence.mark_mine
  split_ifs with h1 h2 <;> simp_all

/-- C8 (confirmed).  Propagation idempotence: calling the knowledge base's
`mark_mine(c)` twice in succession leaves the whole agent state — the mines
set and every statement — identical to calling it once, because a
sentence-level `mark_mine(c)` is a no-op once `c` has been removed from the
sentence's cells. -/
theorem C8_mark_mine_idempotent (st : MinesweeperAI) (c : Cell) :
    (st.mark_mine c).mark_mine c = st.mark_mine c := by
  unfold MinesweeperAI.mark_mine
  simp [List.map_map, Function.comp, Sentence.mark_mine_self_idem]

theorem cond_mark_fold (mi : Finset Cell) :
    ∀ (cs : List Cell) (s : Sentence), cs.Nodup → (∀ c ∈ cs, c ∈ s.cells) →
      cs.foldl (fun a c => if c ∈ mi then a.mark_mine c else a) s =
        ⟨s.cells \ (cs.toFinset ∩ mi), s.count - ((cs.toFinset ∩ mi).card : ℤ)⟩ := by
  intro cs
  induction cs with
  | nil =>
    intro s _ _
    cases s with
    | mk cells count => simp
  | cons c cs ih =>
    intro s hnd hmem
    have hc : c ∈ s.cells := hmem c (List.mem_cons_self c cs)
    have hnd2 := (List.nodup_cons.1 hnd).2
    have hcn : c ∉ cs := (List.nodup_cons.1 hnd).1
    by_cases hmi : c ∈ mi
    · have hstep : (if c ∈ mi then s.mark_mine c else s) =
          ⟨s.cells.erase c, s.count - 1⟩ := by
        rw [if_pos hmi]
        unfold Sentence.mark_mine
        rw [if_pos hc]
      rw [List.foldl_cons, hstep]
      rw [ih ⟨s.cells.erase c, s.count - 1⟩ hnd2 ?memer]
      case memer =>
        intro x hx
        exact Finset.mem_erase.2 ⟨fun he => hcn (he ▸ hx), hmem x (List.mem_cons_of_mem c hx)⟩
      have hins : (c :: cs).toFinset ∩ mi = insert c (cs.toFinset ∩ mi) := by
        ext x
        simp only [List.toFinset_cons, Finset.mem_inter, Finset.mem_insert, List.mem_toFinset]
        by_cases hxc : x = c
        · subst hxc
          tauto
        · tauto
      have hset : s.cells.erase c \ (cs.toFinset ∩ mi) =
          s.cells \ ((c :: cs).toFinset ∩ mi) := by
        rw [hins]
        ext x
        simp only [Finset.mem_sdiff, Finset.mem_erase, Finset.mem_insert, Finset.mem_inter]
        tauto
      have hcard : ((c :: cs).toFinset ∩ mi).card = (cs.toFinset ∩ mi).card + 1 := by
        rw [hins, Finset.card_insert_of_not_mem]
        simp only [Finset.mem_inter, List.mem_toFinset]
        exact fun h => hcn h.1
      rw [Sentence.mk.injEq]
      refine ⟨hset, ?_⟩
      rw [hcard]
      push_cast
      ring
    · have hstep : (if c ∈ mi then s.mark_mine c else s) = s := if_neg hmi
      rw [List.foldl_cons, hstep, ih s hnd2 (fun x hx => hmem x (List.mem_cons_of_mem c hx))]
      have hsame : (c :: cs).toFinset ∩ mi = cs.toFinset ∩ mi := by
        ext x
        simp only [List.toFinset_cons, Finset.mem_inter, Finset.mem_insert, List.mem_toFinset]
        by_cases hxc : x = c
        · subst hxc
          tauto
        · tauto
      rw [hsame]

theorem new_sentence_spec (st : MinesweeperAI) (cell : Cell) (count : ℤ) :
    st.new_sentence cell count =
      ⟨((st.neighbourhood cell) \ st.safes) \ st.mines,
       count - ((((st.neighbourhood cell) \ st.safes) ∩ st.mines).card : ℤ)⟩ := by
  unfold MinesweeperAI.new_sentence
  rw [cond_mark_fold st.mines (cellsList ((st.neighbourhood cell) \ st.safes))
    ⟨(st.neighbourhood cell) \ st.safes, count⟩ (cellsList_nodup _)
    (fun c hc => mem_cellsList.1 hc)]
  rw [cellsList_toFinset, Sentence.mk.injEq]
  constructor
  · rw [Finset.sdiff_inter_self_left]
  · rfl

theorem not_mem_nbhd_self (height width : ℤ) (cell : Cell) : cell ∉ nbhd height width cell := by
  unfold nbhd
  simp

/-- C7 (confirmed).  New-statement construction: provided the confirmed safe
and mine sets are disjoint (which C4 guarantees in every reachable state),
the sentence built by `add_knowledge(cell, count)` — after recording the
move and marking the revealed cell safe — has cell set
`neighbourhood(cell) \ safes \ mines` and count
`count - |neighbourhood(cell) ∩ mines|`, the confirmed sets being those of
the pre-call state. -/
theorem C7_new_sentence (st : MinesweeperAI) (cell : Cell) (count : ℤ)
    (hdisj : st.safes ∩ st.mines = ∅) :
    ((st.record_move cell).ensure_safe cell).new_sentence cell count =
      ⟨((st.neighbourhood cell) \ st.safes) \ st.mines,
       count - (((st.neighbourhood cell) ∩ st.mines).card : ℤ)⟩ := by
  have hcell : cell ∉ st.neighbourhood cell := not_mem_nbhd_self st.height st.width cell
  have hnotmem : ∀ x, x ∈ st.mines → x ∉ st.safes := by
    intro x hx hxs
    have hmem : x ∈ st.safes ∩ st.mines := Finset.mem_inter.2 ⟨hxs, hx⟩
    rw [hdisj] at hmem
    exact absurd hmem (Finset.not_mem_empty x)
  have hint : ((st.neighbourhood cell) \ st.safes) ∩ st.mines =
      (st.neighbourhood cell) ∩ st.mines := by
    ext x
    simp only [Finset.mem_inter, Finset.mem_sdiff]
    constructor
    · rintro ⟨⟨h1, _⟩, h2⟩
      exact ⟨h1, h2⟩
    · rintro ⟨h1, h2⟩
      exact ⟨⟨h1, hnotmem x h2⟩, h2⟩
  have hsdiff : (st.neighbourhood cell) \ insert cell st.safes =
      (st.neighbourhood cell) \ st.safes := by
    ext x
    simp only [Finset.mem_sdiff, Finset.mem_insert]
    constructor
    · rintro ⟨h1, h2⟩
      exact ⟨h1, fun h3 => h2 (Or.inr h3)⟩
    · rintro ⟨h1, h2⟩
      refine ⟨h1, fun h3 => ?_⟩
      rcases h3 with h3 | h3
      · exact hcell (h3 ▸ h1)
      · exact h2 h3
  by_cases hin : cell ∈ st.safes
  · have he : (st.record_move cell).ensure_safe cell = st.record_move cell := by
      unfold MinesweeperAI.ensure_safe
      split_ifs with h
      · rfl
      · exact absurd hin h
    rw [he, new_sentence_spec]
    rw [Sentence.mk.injEq]
    constructor
    · rfl
    · show count - ((((st.neighbourhood cell) \ st.safes) ∩ st.mines).card : ℤ) = _
      rw [hint]
  · have he : (st.record_move cell).ensure_safe cell = (st.record_move cell).mark_safe cell := by
      unfold MinesweeperAI.ensure_safe
      split_ifs with h
      · exact absurd h hin
      · rfl
    rw [he, new_sentence_spec]
    rw [Sentence.mk.injEq]
    constructor
    · show ((st.neighbourhood cell) \ insert cell st.safes) \ st.mines = _
      rw [hsdiff]
    · show count - ((((st.neighbourhood cell) \ insert cell st.safes) ∩ st.mines).card : ℤ) = _
      rw [hsdiff, hint]

/-- Concrete instantiation of C7 on a 2×2 board with one confirmed mine and
one confirmed safe cell. -/
theorem C7_new_sentence_witness :
    ((⟨2, 2, ∅, {(0, 0)}, {(1, 1)}, []⟩ : MinesweeperAI).safes ∩
        (⟨2, 2, ∅, {(0, 0)}, {(1, 1)}, []⟩ : MinesweeperAI).mines = ∅) ∧
    (((⟨2, 2, ∅, {(0, 0)}, {(1, 1)}, []⟩ : MinesweeperAI).record_move (0, 1)).ensure_safe
        (0, 1)).new_sentence (0, 1) 2 =
      ⟨(((⟨2, 2, ∅, {(0, 0)}, {(1, 1)}, []⟩ : MinesweeperAI).neighbourhood (0, 1)) \
          (⟨2, 2, ∅, {(0, 0)}, {(1, 1)}, []⟩ : MinesweeperAI).safes) \
        (⟨2, 2, ∅, {(0, 0)}, {(1, 1)}, []⟩ : MinesweeperAI).mines,
       2 - ((((⟨2, 2, ∅, {(0, 0)}, {(1, 1)}, []⟩ : MinesweeperAI).neighbourhood (0, 1)) ∩
          (⟨2, 2, ∅, {(0, 0)}, {(1, 1)}, []⟩ : MinesweeperAI).mines).card : ℤ)⟩ :=
  ⟨by decide, C7_new_sentence ⟨2, 2, ∅, {(0, 0)}, {(1, 1)}, []⟩ (0, 1) 2 (by decide)⟩

set_option maxRecDepth 40000 in
/-- C1 (corrected) — counterexample.  The claim quantifies over every
knowledge base whose active statements INCLUDE A = `{1,2,3}=2` and
B = `{1,2}=1`.  In the knowledge base `[D, B, A]` with the additional active
statement D = `{3,4}=0` (cells instantiated as `(0,1) … (0,4)`), the
resolution pass `check_knowledge(A)` does derive `{3}=1`, but the turn's
remaining sweeps then mark cell 3 SAFE (via D) and, through the
empty-sentence subset branch, never mark it a mine: at the end of the
turn's inference passes the confirmed-mine set is empty and cell 3 sits in
the safe set, contradicting the claim. -/
theorem C1_counterexample :
    ((⟨({(0, 3)} : Finset Cell), 1⟩ : Sentence) ∈ (c1cex.check_knowledge 2).knowledge) ∧
    ((0, 3) ∉ (c1cex.turn_passes 2).mines) ∧ ((0, 3) ∈ (c1cex.turn_passes 2).safes) := by
  refine ⟨?_, ?_, ?_⟩ <;> decide

set_option maxRecDepth 40000 in
/-- C1 (corrected) — amended claim.  For every knowledge base whose active
statements are EXACTLY B = `{1,2}=1` and A = `{1,2,3}=2` (A the most
recently inserted, at index 1), over arbitrary board dimensions and
arbitrary confirmed-fact sets: one resolution pass `check_knowledge(A)`
mutates A into the derived statement `{3}=1`, which is active afterwards,
and by the end of that turn's inference passes (the pass structure of
`add_knowledge`: the `check_knowledge` call followed by two sweeps) cell 3
is in the confirmed-mine set. -/
theorem C1_subset_derivation (h w : ℤ) (mv mn sf : Finset Cell) :
    ((⟨({(0, 3)} : Finset Cell), 1⟩ : Sentence) ∈
      ((c1kb h w mv mn sf).check_knowledge 1).knowledge) ∧
    ((0, 3) ∈ ((c1kb h w mv mn sf).turn_passes 1).mines) := by
  have h1 : (c1kb h w mv mn sf).check_knowledge 1 =
      ⟨h, w, mv, mn, sf, [sentB, ⟨({(0, 3)} : Finset Cell), 1⟩]⟩ := rfl
  have h2 : (⟨h, w, mv, mn, sf, [sentB, ⟨({(0, 3)} : Finset Cell), 1⟩]⟩ :
        MinesweeperAI).sweep =
      ⟨h, w, mv, insert ((0 : ℤ), (3 : ℤ)) mn, sf, [sentB]⟩ := rfl
  have h3 : (⟨h, w, mv, insert ((0 : ℤ), (3 : ℤ)) mn, sf, [sentB]⟩ :
        MinesweeperAI).sweep =
      ⟨h, w, mv, insert ((0 : ℤ), (3 : ℤ)) mn, sf, [sentB]⟩ := rfl
  have hstate : (c1kb h w mv mn sf).turn_passes 1 =
      ⟨h, w, mv, insert ((0 : ℤ), (3 : ℤ)) mn, sf, [sentB]⟩ := by
    unfold MinesweeperAI.turn_passes
    rw [h1, h2, h3]
  constructor
  · rw [h1]
    simp
  · rw [hstate]
    exact Finset.mem_insert_self _ _

set_option maxRecDepth 40000 in
theorem c6_turn1 : (MinesweeperAI.init 4 4).add_knowledge (2, 1) 1 = c6s1 := by
  have e1 : ((MinesweeperAI.init 4 4).record_move (2, 1)).ensure_safe (2, 1) = (⟨4, 4, ({(2, 1)} : Finset Cell), (∅ : Finset Cell), ({(2, 1)} : Finset Cell), []⟩ : MinesweeperAI) := by decide
  have e2 : (⟨4, 4, ({(2, 1)} : Finset Cell), (∅ : Finset Cell), ({(2, 1)} : Finset Cell), []⟩ : MinesweeperAI).append_new (2, 1) 1 = (⟨4, 4, ({(2, 1)} : Finset Cell), (∅ : Finset Cell), ({(2, 1)} : Finset Cell), [⟨({(1, 0), (1, 1), (1, 2), (2, 0), (2, 2), (3, 0), (3, 1), (3, 2)} : Finset Cell), 1⟩]⟩ : MinesweeperAI) := by decide
  have e3 : (⟨4, 4, ({(2, 1)} : Finset Cell), (∅ : Finset Cell), ({(2, 1)} : Finset Cell), [⟨({(1, 0), (1, 1), (1, 2), (2, 0), (2, 2), (3, 0), (3, 1), (3, 2)} : Finset Cell), 1⟩]⟩ : MinesweeperAI).resolve_all = (⟨4, 4, ({(2, 1)} : Finset Cell), (∅ : Finset Cell), ({(2, 1)} : Finset Cell), [⟨({(1, 0), (1, 1), (1, 2), (2, 0), (2, 2), (3, 0), (3, 1), (3, 2)} : Finset Cell), 1⟩]⟩ : MinesweeperAI) := by decide
  have e4 : (⟨4, 4, ({(2, 1)} : Finset Cell), (∅ : Finset Cell), ({(2, 1)} : Finset Cell), [⟨({(1, 0), (1, 1), (1, 2), (2, 0), (2, 2), (3, 0), (3, 1), (3, 2)} : Finset Cell), 1⟩]⟩ : MinesweeperAI).check_knowledge ((⟨4, 4, ({(2, 1)} : Finset Cell), (∅ : Finset Cell), ({(2, 1)} : Finset Cell), [⟨({(1, 0), (1, 1), (1, 2), (2, 0), (2, 2), (3, 0), (3, 1), (3, 2)} : Finset Cell), 1⟩]⟩ : MinesweeperAI).knowledge.length - 1) = (⟨4, 4, ({(2, 1)} : Finset Cell), (∅ : Finset Cell), ({(2, 1)} : Finset Cell), [⟨({(1, 0), (1, 1), (1, 2), (2, 0), (2, 2), (3, 0), (3, 1), (3, 2)} : Finset Cell), 1⟩]⟩ : MinesweeperAI) := by decide
  have e5 : (⟨4, 4, ({(2, 1)} : Finset Cell), (∅ : Finset Cell), ({(2, 1)} : Finset Cell), [⟨({(1, 0), (1, 1), (1, 2), (2, 0), (2, 2), (3, 0), (3, 1), (3, 2)} : Finset Cell), 1⟩]⟩ : MinesweeperAI).sweep = (⟨4, 4, ({(2, 1)} : Finset Cell), (∅ : Finset Cell), ({(2, 1)} : Finset Cell), [⟨({(1, 0), (1, 1), (1, 2), (2, 0), (2, 2), (3, 0), (3, 1), (3, 2)} : Finset Cell), 1⟩]⟩ : MinesweeperAI) := by decide
  have e6 : (⟨4, 4, ({(2, 1)} : Finset Cell), (∅ : Finset Cell), ({(2, 1)} : Finset Cell), [⟨({(1, 0), (1, 1), (1, 2), (2, 0), (2, 2), (3, 0), (3, 1), (3, 2)} : Finset Cell), 1⟩]⟩ : MinesweeperAI).sweep = c6s1 := by decide
  unfold MinesweeperAI.add_knowledge MinesweeperAI.final_passes MinesweeperAI.turn_passes
  rw [e1, e2, e3, e4, e5, e6]

set_option maxRecDepth 40000 in
theorem c6_turn2 : c6s1.add_knowledge (1, 1) 3 = c6s2 := by
  have e1 : (c6s1.record_move (1, 1)).ensure_safe (1, 1) = (⟨4, 4, ({(1, 1), (2, 1)} : Finset Cell), (∅ : Finset Cell), ({(1, 1), (2, 1)} : Finset Cell), [⟨({(1, 0), (1, 2), (2, 0), (2, 2), (3, 0), (3, 1), (3, 2)} : Finset Cell), 1⟩]⟩ : MinesweeperAI) := by decide
  have e2 : (⟨4, 4, ({(1, 1), (2, 1)} : Finset Cell), (∅ : Finset Cell), ({(1, 1), (2, 1)} : Finset Cell), [⟨({(1, 0), (1, 2), (2, 0), (2, 2), (3, 0), (3, 1), (3, 2)} : Finset Cell), 1⟩]⟩ : MinesweeperAI).append_new (1, 1) 3 = (⟨4, 4, ({(1, 1), (2, 1)} : Finset Cell), (∅ : Finset Cell), ({(1, 1), (2, 1)} : Finset Cell), [⟨({(1, 0), (1, 2), (2, 0), (2, 2), (3, 0), (3, 1), (3, 2)} : Finset Cell), 1⟩, ⟨({(0, 0), (0, 1), (0, 2), (1, 0), (1, 2), (2, 0), (2, 2)} : Finset Cell), 3⟩]⟩ : MinesweeperAI) := by decide
  have e3 : (⟨4, 4, ({(1, 1), (2, 1)} : Finset Cell), (∅ : Finset Cell), ({(1, 1), (2, 1)} : Finset Cell), [⟨({(1, 0), (1, 2), (2, 0), (2, 2), (3, 0), (3, 1), (3, 2)} : Finset Cell), 1⟩, ⟨({(0, 0), (0, 1), (0, 2), (1, 0), (1, 2), (2, 0), (2, 2)} : Finset Cell), 3⟩]⟩ : MinesweeperAI).resolve_all = (⟨4, 4, ({(1, 1), (2, 1)} : Finset Cell), (∅ : Finset Cell), ({(1, 1), (2, 1)} : Finset Cell), [⟨({(1, 0), (1, 2), (2, 0), (2, 2), (3, 0), (3, 1), (3, 2)} : Finset Cell), 1⟩, ⟨({(0, 0), (0, 1), (0, 2), (1, 0), (1, 2), (2, 0), (2, 2)} : Finset Cell), 3⟩]⟩ : MinesweeperAI) := by decide
  have e4 : (⟨4, 4, ({(1, 1), (2, 1)} : Finset Cell), (∅ : Finset Cell), ({(1, 1), (2, 1)} : Finset Cell), [⟨({(1, 0), (1, 2), (2, 0), (2, 2), (3, 0), (3, 1), (3, 2)} : Finset Cell), 1⟩, ⟨({(0, 0), (0, 1), (0, 2), (1, 0), (1, 2), (2, 0), (2, 2)} : Finset Cell), 3⟩]⟩ : MinesweeperAI).check_knowledge ((⟨4, 4, ({(1, 1), (2, 1)} : Finset Cell), (∅ : Finset Cell), ({(1, 1), (2, 1)} : Finset Cell), [⟨({(1, 0), (1, 2), (2, 0), (2, 2), (3, 0), (3, 1), (3, 2)} : Finset Cell), 1⟩, ⟨({(0, 0), (0, 1), (0, 2), (1, 0), (1, 2), (2, 0), (2, 2)} : Finset Cell), 3⟩]⟩ : MinesweeperAI).knowledge.length - 1) = (⟨4, 4, ({(1, 1), (2, 1)} : Finset Cell), (∅ : Finset Cell), ({(1, 1), (2, 1)} : Finset Cell), [⟨({(1, 0), (1, 2), (2, 0), (2, 2), (3, 0), (3, 1), (3, 2)} : Finset Cell), 1⟩, ⟨({(0, 0), (0, 1), (0, 2), (1, 0), (1, 2), (2, 0), (2, 2)} : Finset Cell), 3⟩]⟩ : MinesweeperAI) := by decide
  have e5 : (⟨4, 4, ({(1, 1), (2, 1)} : Finset Cell), (∅ : Finset Cell), ({(1, 1), (2, 1)} : Finset Cell), [⟨({(1, 0), (1, 2), (2, 0), (2, 2), (3, 0), (3, 1), (3, 2)} : Finset Cell), 1⟩, ⟨({(0, 0), (0, 1), (0, 2), (1, 0), (1, 2), (2, 0), (2, 2)} : Finset Cell), 3⟩]⟩ : MinesweeperAI).sweep = (⟨4, 4, ({(1, 1), (2, 1)} : Finset Cell), (∅ : Finset Cell), ({(1, 1), (2, 1)} : Finset Cell), [⟨({(1, 0), (1, 2), (2, 0), (2, 2), (3, 0), (3, 1), (3, 2)} : Finset Cell), 1⟩, ⟨({(0, 0), (0, 1), (0, 2), (1, 0), (1, 2), (2, 0), (2, 2)} : Finset Cell), 3⟩]⟩ : MinesweeperAI) := by decide
  have e6 : (⟨4, 4, ({(1, 1), (2, 1)} : Finset Cell), (∅ : Finset Cell), ({(1, 1), (2, 1)} : Finset Cell), [⟨({(1, 0), (1, 2), (2, 0), (2, 2), (3, 0), (3, 1), (3, 2)} : Finset Cell), 1⟩, ⟨({(0, 0), (0, 1), (0, 2), (1, 0), (1, 2), (2, 0), (2, 2)} : Finset Cell), 3⟩]⟩ : MinesweeperAI).sweep = c6s2 := by decide
  unfold MinesweeperAI.add_knowledge MinesweeperAI.final_passes MinesweeperAI.turn_passes
  rw [e1, e2, e3, e4, e5, e6]

set_option maxRecDepth 40000 in
theorem c6_turn3 : c6s2.add_knowledge (3, 3) 0 = c6s3 := by
  have e1 : (c6s2.record_move (3, 3)).ensure_safe (3, 3) = (⟨4, 4, ({(1, 1), (2, 1), (3, 3)} : Finset Cell), (∅ : Finset Cell), ({(1, 1), (2, 1), (3, 3)} : Finset Cell), [⟨({(1, 0), (1, 2), (2, 0), (2, 2), (3, 0), (3, 1), (3, 2)} : Finset Cell), 1⟩, ⟨({(0, 0), (0, 1), (0, 2), (1, 0), (1, 2), (2, 0), (2, 2)} : Finset Cell), 3⟩]⟩ : MinesweeperAI) := by decide
  have e2 : (⟨4, 4, ({(1, 1), (2, 1), (3, 3)} : Finset Cell), (∅ : Finset Cell), ({(1, 1), (2, 1), (3, 3)} : Finset Cell), [⟨({(1, 0), (1, 2), (2, 0), (2, 2), (3, 0), (3, 1), (3, 2)} : Finset Cell), 1⟩, ⟨({(0, 0), (0, 1), (0, 2), (1, 0), (1, 2), (2, 0), (2, 2)} : Finset Cell), 3⟩]⟩ : MinesweeperAI).append_new (3, 3) 0 = (⟨4, 4, ({(1, 1), (2, 1), (3, 3)} : Finset Cell), (∅ : Finset Cell), ({(1, 1), (2, 1), (3, 3)} : Finset Cell), [⟨({(1, 0), (1, 2), (2, 0), (2, 2), (3, 0), (3, 1), (3, 2)} : Finset Cell), 1⟩, ⟨({(0, 0), (0, 1), (0, 2), (1, 0), (1, 2), (2, 0), (2, 2)} : Finset Cell), 3⟩, ⟨({(2, 2), (2, 3), (3, 2)} : Finset Cell), 0⟩]⟩ : MinesweeperAI) := by decide
  have e3 : (⟨4, 4, ({(1, 1), (2, 1), (3, 3)} : Finset Cell), (∅ : Finset Cell), ({(1, 1), (2, 1), (3, 3)} : Finset Cell), [⟨({(1, 0), (1, 2), (2, 0), (2, 2), (3, 0), (3, 1), (3, 2)} : Finset Cell), 1⟩, ⟨({(0, 0), (0, 1), (0, 2), (1, 0), (1, 2), (2, 0), (2, 2)} : Finset Cell), 3⟩, ⟨({(2, 2), (2, 3), (3, 2)} : Finset Cell), 0⟩]⟩ : MinesweeperAI).resolve_all = (⟨4, 4, ({(1, 1), (2, 1), (3, 3)} : Finset Cell), (∅ : Finset Cell), ({(1, 1), (2, 1), (2, 2), (2, 3), (3, 2), (3, 3)} : Finset Cell), [⟨({(1, 0), (1, 2), (2, 0), (3, 0), (3, 1)} : Finset Cell), 1⟩, ⟨({(0, 0), (0, 1), (0, 2), (1, 0), (1, 2), (2, 0)} : Finset Cell), 3⟩, ⟨(∅ : Finset Cell), 0⟩]⟩ : MinesweeperAI) := by decide
  have e4 : (⟨4, 4, ({(1, 1), (2, 1), (3, 3)} : Finset Cell), (∅ : Finset Cell), ({(1, 1), (2, 1), (2, 2), (2, 3), (3, 2), (3, 3)} : Finset Cell), [⟨({(1, 0), (1, 2), (2, 0), (3, 0), (3, 1)} : Finset Cell), 1⟩, ⟨({(0, 0), (0, 1), (0, 2), (1, 0), (1, 2), (2, 0)} : Finset Cell), 3⟩, ⟨(∅ : Finset Cell), 0⟩]⟩ : MinesweeperAI).check_knowledge ((⟨4, 4, ({(1, 1), (2, 1), (3, 3)} : Finset Cell), (∅ : Finset Cell), ({(1, 1), (2, 1), (2, 2), (2, 3), (3, 2), (3, 3)} : Finset Cell), [⟨({(1, 0), (1, 2), (2, 0), (3, 0), (3, 1)} : Finset Cell), 1⟩, ⟨({(0, 0), (0, 1), (0, 2), (1, 0), (1, 2), (2, 0)} : Finset Cell), 3⟩, ⟨(∅ : Finset Cell), 0⟩]⟩ : MinesweeperAI).knowledge.length - 1) = (⟨4, 4, ({(1, 1), (2, 1), (3, 3)} : Finset Cell), (∅ : Finset Cell), ({(1, 1), (2, 1), (2, 2), (2, 3), (3, 2), (3, 3)} : Finset Cell), [⟨({(1, 0), (1, 2), (2, 0), (3, 0), (3, 1)} : Finset Cell), 1⟩, ⟨({(0, 0), (0, 1), (0, 2), (1, 0), (1, 2), (2, 0)} : Finset Cell), 3⟩]⟩ : MinesweeperAI) := by decide
  have e5 : (⟨4, 4, ({(1, 1), (2, 1), (3, 3)} : Finset Cell), (∅ : Finset Cell), ({(1, 1), (2, 1), (2, 2), (2, 3), (3, 2), (3, 3)} : Finset Cell), [⟨({(1, 0), (1, 2), (2, 0), (3, 0), (3, 1)} : Finset Cell), 1⟩, ⟨({(0, 0), (0, 1), (0, 2), (1, 0), (1, 2), (2, 0)} : Finset Cell), 3⟩]⟩ : MinesweeperAI).sweep = (⟨4, 4, ({(1, 1), (2, 1), (3, 3)} : Finset Cell), (∅ : Finset Cell), ({(1, 1), (2, 1), (2, 2), (2, 3), (3, 2), (3, 3)} : Finset Cell), [⟨({(1, 0), (1, 2), (2, 0), (3, 0), (3, 1)} : Finset Cell), 1⟩, ⟨({(0, 0), (0, 1), (0, 2), (1, 0), (1, 2), (2, 0)} : Finset Cell), 3⟩]⟩ : MinesweeperAI) := by decide
  have e6 : (⟨4, 4, ({(1, 1), (2, 1), (3, 3)} : Finset Cell), (∅ : Finset Cell), ({(1, 1), (2, 1), (2, 2), (2, 3), (3, 2), (3, 3)} : Finset Cell), [⟨({(1, 0), (1, 2), (2, 0), (3, 0), (3, 1)} : Finset Cell), 1⟩, ⟨({(0, 0), (0, 1), (0, 2), (1, 0), (1, 2), (2, 0)} : Finset Cell), 3⟩]⟩ : MinesweeperAI).sweep = c6s3 := by decide
  unfold MinesweeperAI.add_knowledge MinesweeperAI.final_passes MinesweeperAI.turn_passes
  rw [e1, e2, e3, e4, e5, e6]

set_option maxRecDepth 40000 in
theorem c6_turn4 : c6s3.add_knowledge (2, 2) 1 = c6s4 := by
  have e1 : (c6s3.record_move (2, 2)).ensure_safe (2, 2) = (⟨4, 4, ({(1, 1), (2, 1), (2, 2), (3, 3)} : Finset Cell), (∅ : Finset Cell), ({(1, 1), (2, 1), (2, 2), (2, 3), (3, 2), (3, 3)} : Finset Cell), [⟨({(1, 0), (1, 2), (2, 0), (3, 0), (3, 1)} : Finset Cell), 1⟩, ⟨({(0, 0), (0, 1), (0, 2), (1, 0), (1, 2), (2, 0)} : Finset Cell), 3⟩]⟩ : MinesweeperAI) := by decide
  have e2 : (⟨4, 4, ({(1, 1), (2, 1), (2, 2), (3, 3)} : Finset Cell), (∅ : Finset Cell), ({(1, 1), (2, 1), (2, 2), (2, 3), (3, 2), (3, 3)} : Finset Cell), [⟨({(1, 0), (1, 2), (2, 0), (3, 0), (3, 1)} : Finset Cell), 1⟩, ⟨({(0, 0), (0, 1), (0, 2), (1, 0), (1, 2), (2, 0)} : Finset Cell), 3⟩]⟩ : MinesweeperAI).append_new (2, 2) 1 = (⟨4, 4, ({(1, 1), (2, 1), (2, 2), (3, 3)} : Finset Cell), (∅ : Finset Cell), ({(1, 1), (2, 1), (2, 2), (2, 3), (3, 2), (3, 3)} : Finset Cell), [⟨({(1, 0), (1, 2), (2, 0), (3, 0), (3, 1)} : Finset Cell), 1⟩, ⟨({(0, 0), (0, 1), (0, 2), (1, 0), (1, 2), (2, 0)} : Finset Cell), 3⟩, ⟨({(1, 2), (1, 3), (3, 1)} : Finset Cell), 1⟩]⟩ : MinesweeperAI) := by decide
  have e3 : (⟨4, 4, ({(1, 1), (2, 1), (2, 2), (3, 3)} : Finset Cell), (∅ : Finset Cell), ({(1, 1), (2, 1), (2, 2), (2, 3), (3, 2), (3, 3)} : Finset Cell), [⟨({(1, 0), (1, 2), (2, 0), (3, 0), (3, 1)} : Finset Cell), 1⟩, ⟨({(0, 0), (0, 1), (0, 2), (1, 0), (1, 2), (2, 0)} : Finset Cell), 3⟩, ⟨({(1, 2), (1, 3), (3, 1)} : Finset Cell), 1⟩]⟩ : MinesweeperAI).resolve_all = (⟨4, 4, ({(1, 1), (2, 1), (2, 2), (3, 3)} : Finset Cell), (∅ : Finset Cell), ({(1, 1), (2, 1), (2, 2), (2, 3), (3, 2), (3, 3)} : Finset Cell), [⟨({(1, 0), (1, 2), (2, 0), (3, 0), (3, 1)} : Finset Cell), 1⟩, ⟨({(0, 0), (0, 1), (0, 2), (1, 0), (1, 2), (2, 0)} : Finset Cell), 3⟩, ⟨({(1, 2), (1, 3), (3, 1)} : Finset Cell), 1⟩]⟩ : MinesweeperAI) := by decide
  have e4 : (⟨4, 4, ({(1, 1), (2, 1), (2, 2), (3, 3)} : Finset Cell), (∅ : Finset Cell), ({(1, 1), (2, 1), (2, 2), (2, 3), (3, 2), (3, 3)} : Finset Cell), [⟨({(1, 0), (1, 2), (2, 0), (3, 0), (3, 1)} : Finset Cell), 1⟩, ⟨({(0, 0), (0, 1), (0, 2), (1, 0), (1, 2), (2, 0)} : Finset Cell), 3⟩, ⟨({(1, 2), (1, 3), (3, 1)} : Finset Cell), 1⟩]⟩ : MinesweeperAI).check_knowledge ((⟨4, 4, ({(1, 1), (2, 1), (2, 2), (3, 3)} : Finset Cell), (∅ : Finset Cell), ({(1, 1), (2, 1), (2, 2), (2, 3), (3, 2), (3, 3)} : Finset Cell), [⟨({(1, 0), (1, 2), (2, 0), (3, 0), (3, 1)} : Finset Cell), 1⟩, ⟨({(0, 0), (0, 1), (0, 2), (1, 0), (1, 2), (2, 0)} : Finset Cell), 3⟩, ⟨({(1, 2), (1, 3), (3, 1)} : Finset Cell), 1⟩]⟩ : MinesweeperAI).knowledge.length - 1) = (⟨4, 4, ({(1, 1), (2, 1), (2, 2), (3, 3)} : Finset Cell), (∅ : Finset Cell), ({(1, 1), (2, 1), (2, 2), (2, 3), (3, 2), (3, 3)} : Finset Cell), [⟨({(1, 0), (1, 2), (2, 0), (3, 0), (3, 1)} : Finset Cell), 1⟩, ⟨({(0, 0), (0, 1), (0, 2), (1, 0), (1, 2), (2, 0)} : Finset Cell), 3⟩, ⟨({(1, 2), (1, 3), (3, 1)} : Finset Cell), 1⟩]⟩ : MinesweeperAI) := by decide
  have e5 : (⟨4, 4, ({(1, 1), (2, 1), (2, 2), (3, 3)} : Finset Cell), (∅ : Finset Cell), ({(1, 1), (2, 1), (2, 2), (2, 3), (3, 2), (3, 3)} : Finset Cell), [⟨({(1, 0), (1, 2), (2, 0), (3, 0), (3, 1)} : Finset Cell), 1⟩, ⟨({(0, 0), (0, 1), (0, 2), (1, 0), (1, 2), (2, 0)} : Finset Cell), 3⟩, ⟨({(1, 2), (1, 3), (3, 1)} : Finset Cell), 1⟩]⟩ : MinesweeperAI).sweep = (⟨4, 4, ({(1, 1), (2, 1), (2, 2), (3, 3)} : Finset Cell), (∅ : Finset Cell), ({(1, 1), (2, 1), (2, 2), (2, 3), (3, 2), (3, 3)} : Finset Cell), [⟨({(1, 0), (1, 2), (2, 0), (3, 0), (3, 1)} : Finset Cell), 1⟩, ⟨({(0, 0), (0, 1), (0, 2), (1, 0), (1, 2), (2, 0)} : Finset Cell), 3⟩, ⟨({(1, 2), (1, 3), (3, 1)} : Finset Cell), 1⟩]⟩ : MinesweeperAI) := by decide
  have e6 : (⟨4, 4, ({(1, 1), (2, 1), (2, 2), (3, 3)} : Finset Cell), (∅ : Finset Cell), ({(1, 1), (2, 1), (2, 2), (2, 3), (3, 2), (3, 3)} : Finset Cell), [⟨({(1, 0), (1, 2), (2, 0), (3, 0), (3, 1)} : Finset Cell), 1⟩, ⟨({(0, 0), (0, 1), (0, 2), (1, 0), (1, 2), (2, 0)} : Finset Cell), 3⟩, ⟨({(1, 2), (1, 3), (3, 1)} : Finset Cell), 1⟩]⟩ : MinesweeperAI).sweep = c6s4 := by decide
  unfold MinesweeperAI.add_knowledge MinesweeperAI.final_passes MinesweeperAI.turn_passes
  rw [e1, e2, e3, e4, e5, e6]

set_option maxRecDepth 40000 in
theorem c6_turn5 : c6s4.add_knowledge (1, 0) 2 = c6s5 := by
  have e1 : (c6s4.record_move (1, 0)).ensure_safe (1, 0) = (⟨4, 4, ({(1, 0), (1, 1), (2, 1), (2, 2), (3, 3)} : Finset Cell), (∅ : Finset Cell), ({(1, 0), (1, 1), (2, 1), (2, 2), (2, 3), (3, 2), (3, 3)} : Finset Cell), [⟨({(1, 2), (2, 0), (3, 0), (3, 1)} : Finset Cell), 1⟩, ⟨({(0, 0), (0, 1), (0, 2), (1, 2), (2, 0)} : Finset Cell), 3⟩, ⟨({(1, 2), (1, 3), (3, 1)} : Finset Cell), 1⟩]⟩ : MinesweeperAI) := by decide
  have e2 : (⟨4, 4, ({(1, 0), (1, 1), (2, 1), (2, 2), (3, 3)} : Finset Cell), (∅ : Finset Cell), ({(1, 0), (1, 1), (2, 1), (2, 2), (2, 3), (3, 2), (3, 3)} : Finset Cell), [⟨({(1, 2), (2, 0), (3, 0), (3, 1)} : Finset Cell), 1⟩, ⟨({(0, 0), (0, 1), (0, 2), (1, 2), (2, 0)} : Finset Cell), 3⟩, ⟨({(1, 2), (1, 3), (3, 1)} : Finset Cell), 1⟩]⟩ : MinesweeperAI).append_new (1, 0) 2 = (⟨4, 4, ({(1, 0), (1, 1), (2, 1), (2, 2), (3, 3)} : Finset Cell), (∅ : Finset Cell), ({(1, 0), (1, 1), (2, 1), (2, 2), (2, 3), (3, 2), (3, 3)} : Finset Cell), [⟨({(1, 2), (2, 0), (3, 0), (3, 1)} : Finset Cell), 1⟩, ⟨({(0, 0), (0, 1), (0, 2), (1, 2), (2, 0)} : Finset Cell), 3⟩, ⟨({(1, 2), (1, 3), (3, 1)} : Finset Cell), 1⟩, ⟨({(0, 0), (0, 1), (2, 0)} : Finset Cell), 2⟩]⟩ : MinesweeperAI) := by decide
  have e3 : (⟨4, 4, ({(1, 0), (1, 1), (2, 1), (2, 2), (3, 3)} : Finset Cell), (∅ : Finset Cell), ({(1, 0), (1, 1), (2, 1), (2, 2), (2, 3), (3, 2), (3, 3)} : Finset Cell), [⟨({(1, 2), (2, 0), (3, 0), (3, 1)} : Finset Cell), 1⟩, ⟨({(0, 0), (0, 1), (0, 2), (1, 2), (2, 0)} : Finset Cell), 3⟩, ⟨({(1, 2), (1, 3), (3, 1)} : Finset Cell), 1⟩, ⟨({(0, 0), (0, 1), (2, 0)} : Finset Cell), 2⟩]⟩ : MinesweeperAI).resolve_all = (⟨4, 4, ({(1, 0), (1, 1), (2, 1), (2, 2), (3, 3)} : Finset Cell), (∅ : Finset Cell), ({(1, 0), (1, 1), (2, 1), (2, 2), (2, 3), (3, 2), (3, 3)} : Finset Cell), [⟨({(1, 2), (2, 0), (3, 0), (3, 1)} : Finset Cell), 1⟩, ⟨({(0, 0), (0, 1), (0, 2), (1, 2), (2, 0)} : Finset Cell), 3⟩, ⟨({(1, 2), (1, 3), (3, 1)} : Finset Cell), 1⟩, ⟨({(0, 0), (0, 1), (2, 0)} : Finset Cell), 2⟩]⟩ : MinesweeperAI) := by decide
  have e4 : (⟨4, 4, ({(1, 0), (1, 1), (2, 1), (2, 2), (3, 3)} : Finset Cell), (∅ : Finset Cell), ({(1, 0), (1, 1), (2, 1), (2, 2), (2, 3), (3, 2), (3, 3)} : Finset Cell), [⟨({(1, 2), (2, 0), (3, 0), (3, 1)} : Finset Cell), 1⟩, ⟨({(0, 0), (0, 1), (0, 2), (1, 2), (2, 0)} : Finset Cell), 3⟩, ⟨({(1, 2), (1, 3), (3, 1)} : Finset Cell), 1⟩, ⟨({(0, 0), (0, 1), (2, 0)} : Finset Cell), 2⟩]⟩ : MinesweeperAI).check_knowledge ((⟨4, 4, ({(1, 0), (1, 1), (2, 1), (2, 2), (3, 3)} : Finset Cell), (∅ : Finset Cell), ({(1, 0), (1, 1), (2, 1), (2, 2), (2, 3), (3, 2), (3, 3)} : Finset Cell), [⟨({(1, 2), (2, 0), (3, 0), (3, 1)} : Finset Cell), 1⟩, ⟨({(0, 0), (0, 1), (0, 2), (1, 2), (2, 0)} : Finset Cell), 3⟩, ⟨({(1, 2), (1, 3), (3, 1)} : Finset Cell), 1⟩, ⟨({(0, 0), (0, 1), (2, 0)} : Finset Cell), 2⟩]⟩ : MinesweeperAI).knowledge.length - 1) = (⟨4, 4, ({(1, 0), (1, 1), (2, 1), (2, 2), (3, 3)} : Finset Cell), (∅ : Finset Cell), ({(1, 0), (1, 1), (2, 1), (2, 2), (2, 3), (3, 2), (3, 3)} : Finset Cell), [⟨({(1, 2), (2, 0), (3, 0), (3, 1)} : Finset Cell), 1⟩, ⟨({(0, 2), (1, 2)} : Finset Cell), 1⟩, ⟨({(1, 2), (1, 3), (3, 1)} : Finset Cell), 1⟩, ⟨({(0, 0), (0, 1), (2, 0)} : Finset Cell), 2⟩]⟩ : MinesweeperAI) := by decide
  have e5 : (⟨4, 4, ({(1, 0), (1, 1), (2, 1), (2, 2), (3, 3)} : Finset Cell), (∅ : Finset Cell), ({(1, 0), (1, 1), (2, 1), (2, 2), (2, 3), (3, 2), (3, 3)} : Finset Cell), [⟨({(1, 2), (2, 0), (3, 0), (3, 1)} : Finset Cell), 1⟩, ⟨({(0, 2), (1, 2)} : Finset Cell), 1⟩, ⟨({(1, 2), (1, 3), (3, 1)} : Finset Cell), 1⟩, ⟨({(0, 0), (0, 1), (2, 0)} : Finset Cell), 2⟩]⟩ : MinesweeperAI).sweep = (⟨4, 4, ({(1, 0), (1, 1), (2, 1), (2, 2), (3, 3)} : Finset Cell), (∅ : Finset Cell), ({(1, 0), (1, 1), (2, 1), (2, 2), (2, 3), (3, 2), (3, 3)} : Finset Cell), [⟨({(1, 2), (2, 0), (3, 0), (3, 1)} : Finset Cell), 1⟩, ⟨({(0, 2), (1, 2)} : Finset Cell), 1⟩, ⟨({(1, 2), (1, 3), (3, 1)} : Finset Cell), 1⟩, ⟨({(0, 0), (0, 1), (2, 0)} : Finset Cell), 2⟩]⟩ : MinesweeperAI) := by decide
  have e6 : (⟨4, 4, ({(1, 0), (1, 1), (2, 1), (2, 2), (3, 3)} : Finset Cell), (∅ : Finset Cell), ({(1, 0), (1, 1), (2, 1), (2, 2), (2, 3), (3, 2), (3, 3)} : Finset Cell), [⟨({(1, 2), (2, 0), (3, 0), (3, 1)} : Finset Cell), 1⟩, ⟨({(0, 2), (1, 2)} : Finset Cell), 1⟩, ⟨({(1, 2), (1, 3), (3, 1)} : Finset Cell), 1⟩, ⟨({(0, 0), (0, 1), (2, 0)} : Finset Cell), 2⟩]⟩ : MinesweeperAI).sweep = c6s5 := by decide
  unfold MinesweeperAI.add_knowledge MinesweeperAI.final_passes MinesweeperAI.turn_passes
  rw [e1, e2, e3, e4, e5, e6]

set_option maxRecDepth 40000 in
theorem c6_turn6 : c6s5.add_knowledge (2, 0) 0 = c6s6 := by
  have e1 : (c6s5.record_move (2, 0)).ensure_safe (2, 0) = (⟨4, 4, ({(1, 0), (1, 1), (2, 0), (2, 1), (2, 2), (3, 3)} : Finset Cell), (∅ : Finset Cell), ({(1, 0), (1, 1), (2, 0), (2, 1), (2, 2), (2, 3), (3, 2), (3, 3)} : Finset Cell), [⟨({(1, 2), (3, 0), (3, 1)} : Finset Cell), 1⟩, ⟨({(0, 2), (1, 2)} : Finset Cell), 1⟩, ⟨({(1, 2), (1, 3), (3, 1)} : Finset Cell), 1⟩, ⟨({(0, 0), (0, 1)} : Finset Cell), 2⟩]⟩ : MinesweeperAI) := by decide
  have e2 : (⟨4, 4, ({(1, 0), (1, 1), (2, 0), (2, 1), (2, 2), (3, 3)} : Finset Cell), (∅ : Finset Cell), ({(1, 0), (1, 1), (2, 0), (2, 1), (2, 2), (2, 3), (3, 2), (3, 3)} : Finset Cell), [⟨({(1, 2), (3, 0), (3, 1)} : Finset Cell), 1⟩, ⟨({(0, 2), (1, 2)} : Finset Cell), 1⟩, ⟨({(1, 2), (1, 3), (3, 1)} : Finset Cell), 1⟩, ⟨({(0, 0), (0, 1)} : Finset Cell), 2⟩]⟩ : MinesweeperAI).append_new (2, 0) 0 = (⟨4, 4, ({(1, 0), (1, 1), (2, 0), (2, 1), (2, 2), (3, 3)} : Finset Cell), (∅ : Finset Cell), ({(1, 0), (1, 1), (2, 0), (2, 1), (2, 2), (2, 3), (3, 2), (3, 3)} : Finset Cell), [⟨({(1, 2), (3, 0), (3, 1)} : Finset Cell), 1⟩, ⟨({(0, 2), (1, 2)} : Finset Cell), 1⟩, ⟨({(1, 2), (1, 3), (3, 1)} : Finset Cell), 1⟩, ⟨({(0, 0), (0, 1)} : Finset Cell), 2⟩, ⟨({(3, 0), (3, 1)} : Finset Cell), 0⟩]⟩ : MinesweeperAI) := by decide
  have e3 : (⟨4, 4, ({(1, 0), (1, 1), (2, 0), (2, 1), (2, 2), (3, 3)} : Finset Cell), (∅ : Finset Cell), ({(1, 0), (1, 1), (2, 0), (2, 1), (2, 2), (2, 3), (3, 2), (3, 3)} : Finset Cell), [⟨({(1, 2), (3, 0), (3, 1)} : Finset Cell), 1⟩, ⟨({(0, 2), (1, 2)} : Finset Cell), 1⟩, ⟨({(1, 2), (1, 3), (3, 1)} : Finset Cell), 1⟩, ⟨({(0, 0), (0, 1)} : Finset Cell), 2⟩, ⟨({(3, 0), (3, 1)} : Finset Cell), 0⟩]⟩ : MinesweeperAI).resolve_all = (⟨4, 4, ({(1, 0), (1, 1), (2, 0), (2, 1), (2, 2), (3, 3)} : Finset Cell), ({(0, 0), (0, 1)} : Finset Cell), ({(1, 0), (1, 1), (2, 0), (2, 1), (2, 2), (2, 3), (3, 0), (3, 1), (3, 2), (3, 3)} : Finset Cell), [⟨({(1, 2)} : Finset Cell), 1⟩, ⟨({(0, 2), (1, 2)} : Finset Cell), 1⟩, ⟨({(1, 2), (1, 3)} : Finset Cell), 1⟩, ⟨(∅ : Finset Cell), 0⟩, ⟨(∅ : Finset Cell), 0⟩]⟩ : MinesweeperAI) := by decide
  have e4 : (⟨4, 4, ({(1, 0), (1, 1), (2, 0), (2, 1), (2, 2), (3, 3)} : Finset Cell), ({(0, 0), (0, 1)} : Finset Cell), ({(1, 0), (1, 1), (2, 0), (2, 1), (2, 2), (2, 3), (3, 0), (3, 1), (3, 2), (3, 3)} : Finset Cell), [⟨({(1, 2)} : Finset Cell), 1⟩, ⟨({(0, 2), (1, 2)} : Finset Cell), 1⟩, ⟨({(1, 2), (1, 3)} : Finset Cell), 1⟩, ⟨(∅ : Finset Cell), 0⟩, ⟨(∅ : Finset Cell), 0⟩]⟩ : MinesweeperAI).check_knowledge ((⟨4, 4, ({(1, 0), (1, 1), (2, 0), (2, 1), (2, 2), (3, 3)} : Finset Cell), ({(0, 0), (0, 1)} : Finset Cell), ({(1, 0), (1, 1), (2, 0), (2, 1), (2, 2), (2, 3), (3, 0), (3, 1), (3, 2), (3, 3)} : Finset Cell), [⟨({(1, 2)} : Finset Cell), 1⟩, ⟨({(0, 2), (1, 2)} : Finset Cell), 1⟩, ⟨({(1, 2), (1, 3)} : Finset Cell), 1⟩, ⟨(∅ : Finset Cell), 0⟩, ⟨(∅ : Finset Cell), 0⟩]⟩ : MinesweeperAI).knowledge.length - 1) = (⟨4, 4, ({(1, 0), (1, 1), (2, 0), (2, 1), (2, 2), (3, 3)} : Finset Cell), ({(0, 0), (0, 1)} : Finset Cell), ({(1, 0), (1, 1), (2, 0), (2, 1), (2, 2), (2, 3), (3, 0), (3, 1), (3, 2), (3, 3)} : Finset Cell), [⟨({(1, 2)} : Finset Cell), 1⟩, ⟨({(0, 2), (1, 2)} : Finset Cell), 1⟩, ⟨({(1, 2), (1, 3)} : Finset Cell), 1⟩, ⟨(∅ : Finset Cell), 0⟩]⟩ : MinesweeperAI) := by decide
  have e5 : (⟨4, 4, ({(1, 0), (1, 1), (2, 0), (2, 1), (2, 2), (3, 3)} : Finset Cell), ({(0, 0), (0, 1)} : Finset Cell), ({(1, 0), (1, 1), (2, 0), (2, 1), (2, 2), (2, 3), (3, 0), (3, 1), (3, 2), (3, 3)} : Finset Cell), [⟨({(1, 2)} : Finset Cell), 1⟩, ⟨({(0, 2), (1, 2)} : Finset Cell), 1⟩, ⟨({(1, 2), (1, 3)} : Finset Cell), 1⟩, ⟨(∅ : Finset Cell), 0⟩]⟩ : MinesweeperAI).sweep = (⟨4, 4, ({(1, 0), (1, 1), (2, 0), (2, 1), (2, 2), (3, 3)} : Finset Cell), ({(0, 0), (0, 1), (1, 2)} : Finset Cell), ({(1, 0), (1, 1), (1, 3), (2, 0), (2, 1), (2, 2), (2, 3), (3, 0), (3, 1), (3, 2), (3, 3)} : Finset Cell), [⟨({(0, 2)} : Finset Cell), 0⟩, ⟨(∅ : Finset Cell), 0⟩]⟩ : MinesweeperAI) := by decide
  have e6 : (⟨4, 4, ({(1, 0), (1, 1), (2, 0), (2, 1), (2, 2), (3, 3)} : Finset Cell), ({(0, 0), (0, 1), (1, 2)} : Finset Cell), ({(1, 0), (1, 1), (1, 3), (2, 0), (2, 1), (2, 2), (2, 3), (3, 0), (3, 1), (3, 2), (3, 3)} : Finset Cell), [⟨({(0, 2)} : Finset Cell), 0⟩, ⟨(∅ : Finset Cell), 0⟩]⟩ : MinesweeperAI).sweep = c6s6 := by decide
  unfold MinesweeperAI.add_knowledge MinesweeperAI.final_passes MinesweeperAI.turn_passes
  rw [e1, e2, e3, e4, e5, e6]

set_option maxRecDepth 40000 in
/-- C6 (code_bug).  Totality fails: on a 4×4 board with mines
`{(0,0), (0,1), (1,2)}`, after the six `add_knowledge` calls of `c6turns` —
all on distinct safe cells, each reporting its true neighbour-mine count, so
every input is well formed — the sweep structure of `add_knowledge` (which
iterates the knowledge list while `check_knowledge` removes elements from
it, skipping their successors) leaves a sentence with an EMPTY cell set in
the knowledge base.  The next `make_random_move` call then divides by
`len(sentence.cells) = 0`: the call raises `ZeroDivisionError` (`none` in
the model) instead of returning a move, contradicting the specification's
totality guarantee. -/
theorem C6_zero_division :
    consistentTurns c6mines 4 4 c6turns ∧
    (∃ s ∈ (runTurns (MinesweeperAI.init 4 4) c6turns).knowledge, s.cells = ∅) ∧
    (runTurns (MinesweeperAI.init 4 4) c6turns).make_random_move [] = none := by
  have hrun : runTurns (MinesweeperAI.init 4 4) c6turns = c6s6 := by
    unfold runTurns c6turns
    simp only [List.foldl_cons, List.foldl_nil]
    rw [c6_turn1, c6_turn2, c6_turn3, c6_turn4, c6_turn5, c6_turn6]
  refine ⟨?_, ?_, ?_⟩
  · unfold consistentTurns
    decide
  · rw [hrun]
    decide
  · rw [hrun]
    decide

theorem SentenceTrue.mark_safe_of {M : Finset Cell} {s : Sentence} {c : Cell}
    (h : SentenceTrue M s) (hc : c ∉ M) : SentenceTrue M (s.mark_safe c) := by
  unfold Sentence.mark_safe
  split_ifs with hmem
  · unfold SentenceTrue at *
    have hint : s.cells.erase c ∩ M = s.cells ∩ M := by
      ext x
      simp only [Finset.mem_inter, Finset.mem_erase]
      constructor
      · rintro ⟨⟨_, h1⟩, h2⟩
        exact ⟨h1, h2⟩
      · rintro ⟨h1, h2⟩
        exact ⟨⟨fun he => hc (he ▸ h2), h1⟩, h2⟩
    simpa [hint] using h
  · exact h

theorem SentenceTrue.mark_mine_of {M : Finset Cell} {s : Sentence} {c : Cell}
    (h : SentenceTrue M s) (hc : c ∈ M) : SentenceTrue M (s.mark_mine c) := by
  unfold Sentence.mark_mine
  split_ifs with hmem
  · unfold SentenceTrue at *
    have hint : s.cells.erase c ∩ M = (s.cells ∩ M).erase c := by
      ext x
      simp only [Finset.mem_inter, Finset.mem_erase]
      tauto
    have hcm : c ∈ s.cells ∩ M := Finset.mem_inter.2 ⟨hmem, hc⟩
    have hpos : 1 ≤ (s.cells ∩ M).card := Finset.card_pos.2 ⟨c, hcm⟩
    show s.count - 1 = ((s.cells.erase c ∩ M).card : ℤ)
    rw [hint, Finset.card_erase_of_mem hcm, Nat.cast_sub hpos, ← h]
    ring
  · exact h

theorem Sound.ai_safe_of {M : Finset Cell} {st : MinesweeperAI} {c : Cell}
    (h : Sound M st) (hc : c ∉ M) : Sound M (st.mark_safe c) := by
  refine ⟨?_, h.2.1, ?_⟩
  · intro s hs
    rcases List.mem_map.1 hs with ⟨s0, hs0, rfl⟩
    exact (h.1 s0 hs0).mark_safe_of hc
  · intro x hx
    rcases Finset.mem_insert.1 hx with rfl | hx
    · exact hc
    · exact h.2.2 x hx

theorem Sound.ai_mine_of {M : Finset Cell} {st : MinesweeperAI} {c : Cell}
    (h : Sound M st) (hc : c ∈ M) : Sound M (st.mark_mine c) := by
  refine ⟨?_, ?_, h.2.2⟩
  · intro s hs
    rcases List.mem_map.1 hs with ⟨s0, hs0, rfl⟩
    exact (h.1 s0 hs0).mark_mine_of hc
  · exact Finset.insert_subset_iff.2 ⟨hc, h.2.1⟩

theorem sound_fold_safe {M : Finset Cell} :
    ∀ (cs : List Cell) (st : MinesweeperAI), (∀ c ∈ cs, c ∉ M) → Sound M st →
      Sound M (cs.foldl (fun a c => a.mark_safe c) st) := by
  intro cs
  induction cs with
  | nil => exact fun st _ h => h
  | cons c cs ih =>
    intro st hcs h
    rw [List.foldl_cons]
    exact ih _ (fun x hx => hcs x (List.mem_cons_of_mem c hx))
      (h.ai_safe_of (hcs c (List.mem_cons_self c cs)))

theorem sound_fold_mine {M : Finset Cell} :
    ∀ (cs : List Cell) (st : MinesweeperAI), (∀ c ∈ cs, c ∈ M) → Sound M st →
      Sound M (cs.foldl (fun a c => a.mark_mine c) st) := by
  intro cs
  induction cs with
  | nil => exact fun st _ h => h
  | cons c cs ih =>
    intro st hcs h
    rw [List.foldl_cons]
    exact ih _ (fun x hx => hcs x (List.mem_cons_of_mem c hx))
      (h.ai_mine_of (hcs c (List.mem_cons_self c cs)))

theorem mem_of_mem_eraseFirst : ∀ {l : List Sentence} {x s : Sentence},
    s ∈ eraseFirst l x → s ∈ l := by
  intro l
  induction l with
  | nil => intro x s h; simp [eraseFirst] at h
  | cons a l ih =>
    intro x s h
    unfold eraseFirst at h
    split_ifs at h with ha
    · exact List.mem_cons_of_mem a h
    · rcases List.mem_cons.1 h with rfl | h
      · exact List.mem_cons_self s l
      · exact List.mem_cons_of_mem a (ih h)

theorem subtractLoop_zero (l : List Sentence) : subtractLoop l 0 = l := by
  unfold subtractLoop
  induction l with
  | nil => rfl
  | cons a l ih =>
    rw [List.map_cons, ih]
    congr 1
    split_ifs with h
    · cases a with
      | mk cells count => simp
    · rfl

theorem allTrue_set {M : Finset Cell} {l : List Sentence} {n : ℕ} {v : Sentence}
    (h : ∀ s ∈ l, SentenceTrue M s) (hv : SentenceTrue M v) :
    ∀ s ∈ l.set n v, SentenceTrue M s := by
  intro s hs
  rcases List.mem_or_eq_of_mem_set hs with h1 | h1
  · exact h s h1
  · exact h1 ▸ hv

theorem SentenceTrue.sdiff_of {M : Finset Cell} {A B : Sentence}
    (hA : SentenceTrue M A) (hB : SentenceTrue M B) (hsub : B.cells ⊆ A.cells) :
    SentenceTrue M ⟨A.cells \ B.cells, A.count - B.count⟩ := by
  unfold SentenceTrue at *
  have h1 : (A.cells \ B.cells) ∩ M = (A.cells ∩ M) \ (B.cells ∩ M) := by
    ext x
    simp only [Finset.mem_inter, Finset.mem_sdiff]
    constructor
    · rintro ⟨⟨h2, h3⟩, h4⟩
      exact ⟨⟨h2, h4⟩, fun h5 => h3 h5.1⟩
    · rintro ⟨⟨h2, h4⟩, h5⟩
      exact ⟨⟨h2, fun h6 => h5 ⟨h6, h4⟩⟩, h4⟩
  have h2 : (B.cells ∩ M) ⊆ (A.cells ∩ M) :=
    Finset.inter_subset_inter hsub (Finset.Subset.refl M)
  show A.count - B.count = (((A.cells \ B.cells) ∩ M).card : ℤ)
  rw [h1, Finset.card_sdiff h2, Nat.cast_sub (Finset.card_le_card h2), ← hA, ← hB]

theorem subsetStep_allTrue {M : Finset Cell} {l : List Sentence} {p k : ℕ}
    (h : ∀ s ∈ l, SentenceTrue M s) : ∀ s ∈ subsetStep l p k, SentenceTrue M s := by
  unfold subsetStep
  cases hp : l.get? p with
  | none => exact h
  | some s1 =>
    cases hk : l.get? k with
    | none => exact h
    | some s2 =>
      dsimp only
      set L1 := (if s2.cells ⊂ s1.cells then
          l.set p { cells := s1.cells \ s2.cells, count := s1.count - s2.count } else l)
        with hL1
      have hl1 : ∀ s ∈ L1, SentenceTrue M s := by
        rw [hL1]
        split_ifs with hss
        · exact allTrue_set h
            ((h s1 (List.get?_mem hp)).sdiff_of (h s2 (List.get?_mem hk)) hss.subset)
        · exact h
      cases hp1 : L1.get? p with
      | none => exact hl1
      | some s3 =>
        cases hk1 : L1.get? k with
        | none => exact hl1
        | some s4 =>
          dsimp only
          split_ifs with hss2
          · exact allTrue_set hl1
              ((hl1 s4 (List.get?_mem hk1)).sdiff_of (hl1 s3 (List.get?_mem hp1)) hss2.subset)
          · exact hl1

theorem subsetLoop_allTrue {M : Finset Cell} {l : List Sentence} {p : ℕ}
    (h : ∀ s ∈ l, SentenceTrue M s) : ∀ s ∈ subsetLoop l p, SentenceTrue M s := by
  unfold subsetLoop
  generalize List.range l.length = ks
  induction ks generalizing l with
  | nil => exact h
  | cons k ks ih =>
    rw [List.foldl_cons]
    exact ih (subsetStep_allTrue h)

theorem true_cells_safe {M : Finset Cell} {s : Sentence} (hs : SentenceTrue M s)
    (hzero : s.count = 0) : ∀ c ∈ s.cells, c ∉ M := by
  intro c hc hM
  unfold SentenceTrue at hs
  rw [hzero] at hs
  have hemp : s.cells ∩ M = ∅ := Finset.card_eq_zero.1 (by omega)
  have : c ∈ s.cells ∩ M := Finset.mem_inter.2 ⟨hc, hM⟩
  rw [hemp] at this
  exact Finset.not_mem_empty c this

theorem true_cells_mine {M : Finset Cell} {s : Sentence} (hs : SentenceTrue M s)
    (hfull : (s.cells.card : ℤ) = s.count) : ∀ c ∈ s.cells, c ∈ M := by
  intro c hc
  unfold SentenceTrue at hs
  have hcards : (s.cells ∩ M).card = s.cells.card := by omega
  have heq : s.cells ∩ M = s.cells :=
    Finset.eq_of_subset_of_card_le (Finset.inter_subset_left) (by omega)
  have : c ∈ s.cells ∩ M := heq.symm ▸ hc
  exact (Finset.mem_inter.1 this).2

theorem check_knowledge_sound {M : Finset Cell} {st : MinesweeperAI} {p : ℕ}
    (h : Sound M st) : Sound M (st.check_knowledge p) := by
  unfold MinesweeperAI.check_knowledge
  cases hp : st.knowledge.get? p with
  | none => exact h
  | some s =>
    have hs : SentenceTrue M s := h.1 s (List.get?_mem hp)
    dsimp only
    split_ifs with h1 h2 h3
    · have hc0 : s.count = 0 := by
        unfold SentenceTrue at hs
        rw [h1] at hs
        simpa using hs
      rw [hc0, subtractLoop_zero]
      exact ⟨fun s2 hs2 => h.1 s2 (mem_of_mem_eraseFirst hs2), h.2⟩
    · have hst1 := sound_fold_safe (cellsList s.cells) st
        (fun c hc => true_cells_safe hs h2 c (mem_cellsList.1 hc)) h
      rw [subtractLoop_zero]
      exact ⟨fun s2 hs2 => hst1.1 s2 (mem_of_mem_eraseFirst hs2), hst1.2⟩
    · have hst1 := sound_fold_mine (cellsList s.cells) st
        (fun c hc => true_cells_mine hs h3 c (mem_cellsList.1 hc)) h
      rw [subtractLoop_zero]
      exact ⟨fun s2 hs2 => hst1.1 s2 (mem_of_mem_eraseFirst hs2), hst1.2⟩
    · exact ⟨subsetLoop_allTrue h.1, h.2⟩

theorem known_mines_truthy {s : Sentence} (h : setTruthy s.known_mines = true) :
    s.known_mines.getD ∅ = s.cells ∧ (s.cells.card : ℤ) = s.count := by
  unfold Sentence.known_mines at *
  split_ifs at h ⊢ with h1 h2
  · exact ⟨rfl, h2⟩
  · simp [setTruthy] at h
  · simp [setTruthy] at h

theorem known_safes_truthy {s : Sentence} (h : setTruthy s.known_safes = true) :
    s.known_safes.getD ∅ = s.cells ∧ s.count = 0 := by
  unfold Sentence.known_safes at *
  split_ifs at h ⊢ with h1
  · exact ⟨rfl, h1⟩
  · simp [setTruthy] at h

theorem resolveStep_sound {M : Finset Cell} {st : MinesweeperAI} {idx : ℕ}
    (h : Sound M st) : Sound M (st.resolveStep idx) := by
  unfold MinesweeperAI.resolveStep
  cases hp : st.knowledge.get? idx with
  | none => exact h
  | some s =>
    dsimp only
    set st1 := (if setTruthy s.known_mines then
        (cellsList (s.known_mines.getD ∅)).foldl (fun a c => a.mark_mine c) st
      else st) with hst1
    have h1 : Sound M st1 := by
      rw [hst1]
      split_ifs with hT
      · rcases known_mines_truthy hT with ⟨hgd, hcard⟩
        rw [hgd]
        exact sound_fold_mine (cellsList s.cells) st
          (fun c hc => true_cells_mine (h.1 s (List.get?_mem hp)) hcard c (mem_cellsList.1 hc)) h
      · exact h
    cases hp1 : st1.knowledge.get? idx with
    | none => exact h1
    | some s2 =>
      dsimp only
      split_ifs with hT2
      · rcases known_safes_truthy hT2 with ⟨hgd, hzero⟩
        rw [hgd]
        exact sound_fold_safe (cellsList s2.cells) st1
          (fun c hc => true_cells_safe (h1.1 s2 (List.get?_mem hp1)) hzero c (mem_cellsList.1 hc)) h1
      · exact h1

theorem resolvePass_sound {M : Finset Cell} :
    ∀ (fuel idx : ℕ) (st : MinesweeperAI), Sound M st → Sound M (st.resolvePass idx fuel) := by
  intro fuel
  induction fuel with
  | zero => exact fun idx st h => h
  | succ fuel ih =>
    intro idx st h
    show Sound M (if idx < st.knowledge.length then
      (st.resolveStep idx).resolvePass (idx + 1) fuel else st)
    split_ifs with hlt
    · exact ih _ _ (resolveStep_sound h)
    · exact h

theorem runPass_sound {M : Finset Cell} :
    ∀ (fuel idx : ℕ) (st : MinesweeperAI), Sound M st → Sound M (st.runPass idx fuel) := by
  intro fuel
  induction fuel with
  | zero => exact fun idx st h => h
  | succ fuel ih =>
    intro idx st h
    show Sound M (if idx < st.knowledge.length then
      (st.check_knowledge idx).runPass (idx + 1) fuel else st)
    split_ifs with hlt
    · exact ih _ _ (check_knowledge_sound h)
    · exact h

theorem fold_safe_dims : ∀ (cs : List Cell) (st : MinesweeperAI),
    ((cs.foldl (fun a c => a.mark_safe c) st).height = st.height ∧
     (cs.foldl (fun a c => a.mark_safe c) st).width = st.width) := by
  intro cs
  induction cs with
  | nil => exact fun st => ⟨rfl, rfl⟩
  | cons c cs ih =>
    intro st
    rw [List.foldl_cons]
    exact ih (st.mark_safe c)

theorem fold_mine_dims : ∀ (cs : List Cell) (st : MinesweeperAI),
    ((cs.foldl (fun a c => a.mark_mine c) st).height = st.height ∧
     (cs.foldl (fun a c => a.mark_mine c) st).width = st.width) := by
  intro cs
  induction cs with
  | nil => exact fun st => ⟨rfl, rfl⟩
  | cons c cs ih =>
    intro st
    rw [List.foldl_cons]
    exact ih (st.mark_mine c)

theorem check_knowledge_dims (st : MinesweeperAI) (p : ℕ) :
    (st.check_knowledge p).height = st.height ∧ (st.check_knowledge p).width = st.width := by
  unfold MinesweeperAI.check_knowledge
  cases hp : st.knowledge.get? p with
  | none => exact ⟨rfl, rfl⟩
  | some s =>
    dsimp only
    split_ifs with h1 h2 h3
    · exact ⟨rfl, rfl⟩
    · exact fold_safe_dims (cellsList s.cells) st
    · exact fold_mine_dims (cellsList s.cells) st
    · exact ⟨rfl, rfl⟩

theorem resolveStep_dims (st : MinesweeperAI) (idx : ℕ) :
    (st.resolveStep idx).height = st.height ∧ (st.resolveStep idx).width = st.width := by
  unfold MinesweeperAI.resolveStep
  cases hp : st.knowledge.get? idx with
  | none => exact ⟨rfl, rfl⟩
  | some s =>
    dsimp only
    set st1 := (if setTruthy s.known_mines then
        (cellsList (s.known_mines.getD ∅)).foldl (fun a c => a.mark_mine c) st
      else st) with hst1
    have h1 : st1.height = st.height ∧ st1.width = st.width := by
      rw [hst1]
      split_ifs with hT
      · exact fold_mine_dims _ st
      · exact ⟨rfl, rfl⟩
    cases hp1 : st1.knowledge.get? idx with
    | none => exact h1
    | some s2 =>
      dsimp only
      split_ifs with hT2
      · have h2 := fold_safe_dims (cellsList (s2.known_safes.getD ∅)) st1
        exact ⟨h2.1.trans h1.1, h2.2.trans h1.2⟩
      · exact h1

theorem resolvePass_dims : ∀ (fuel idx : ℕ) (st : MinesweeperAI),
    (st.resolvePass idx fuel).height = st.height ∧ (st.resolvePass idx fuel).width = st.width := by
  intro fuel
  induction fuel with
  | zero => exact fun idx st => ⟨rfl, rfl⟩
  | succ fuel ih =>
    intro idx st
    show ((if idx < st.knowledge.length then
        (st.resolveStep idx).resolvePass (idx + 1) fuel else st).height = st.height ∧
      (if idx < st.knowledge.length then
        (st.resolveStep idx).resolvePass (idx + 1) fuel else st).width = st.width)
    split_ifs with hlt
    · have h1 := ih (idx + 1) (st.resolveStep idx)
      have h2 := resolveStep_dims st idx
      exact ⟨h1.1.trans h2.1, h1.2.trans h2.2⟩
    · exact ⟨rfl, rfl⟩

theorem runPass_dims : ∀ (fuel idx : ℕ) (st : MinesweeperAI),
    (st.runPass idx fuel).height = st.height ∧ (st.runPass idx fuel).width = st.width := by
  intro fuel
  induction fuel with
  | zero => exact fun idx st => ⟨rfl, rfl⟩
  | succ fuel ih =>
    intro idx st
    show ((if idx < st.knowledge.length then
        (st.check_knowledge idx).runPass (idx + 1) fuel else st).height = st.height ∧
      (if idx < st.knowledge.length then
        (st.check_knowledge idx).runPass (idx + 1) fuel else st).width = st.width)
    split_ifs with hlt
    · have h1 := ih (idx + 1) (st.check_knowledge idx)
      have h2 := check_knowledge_dims st idx
      exact ⟨h1.1.trans h2.1, h1.2.trans h2.2⟩
    · exact ⟨rfl, rfl⟩

theorem ensure_safe_dims (st : MinesweeperAI) (c : Cell) :
    (st.ensure_safe c).height = st.height ∧ (st.ensure_safe c).width = st.width := by
  unfold MinesweeperAI.ensure_safe
  split_ifs with h
  · exact ⟨rfl, rfl⟩
  · exact ⟨rfl, rfl⟩

theorem add_knowledge_dims (st : MinesweeperAI) (cell : Cell) (count : ℤ) :
    (st.add_knowledge cell count).height = st.height ∧
    (st.add_knowledge cell count).width = st.width := by
  unfold MinesweeperAI.add_knowledge MinesweeperAI.final_passes MinesweeperAI.turn_passes
    MinesweeperAI.sweep MinesweeperAI.resolve_all
  have h2 := ensure_safe_dims (st.record_move cell) cell
  have h4 := resolvePass_dims
    ((((st.record_move cell).ensure_safe cell).append_new cell count)).knowledge.length 0
    (((st.record_move cell).ensure_safe cell).append_new cell count)
  constructor
  · exact (runPass_dims _ _ _).1.trans ((runPass_dims _ _ _).1.trans
      ((check_knowledge_dims _ _).1.trans (h4.1.trans h2.1)))
  · exact (runPass_dims _ _ _).2.trans ((runPass_dims _ _ _).2.trans
      ((check_knowledge_dims _ _).2.trans (h4.2.trans h2.2)))

theorem new_sentence_true {M : Finset Cell} {st : MinesweeperAI} {cell : Cell} {count : ℤ}
    (h : Sound M st)
    (hcount : count = (((nbhd st.height st.width cell) ∩ M).card : ℤ)) :
    SentenceTrue M (st.new_sentence cell count) := by
  rw [new_sentence_spec]
  unfold SentenceTrue MinesweeperAI.neighbourhood
  dsimp only
  set NB := nbhd st.height st.width cell with hNB
  have hXM : (NB \ st.safes) ∩ M = NB ∩ M := by
    ext x
    simp only [Finset.mem_inter, Finset.mem_sdiff]
    constructor
    · rintro ⟨⟨h1, _⟩, h2⟩
      exact ⟨h1, h2⟩
    · rintro ⟨h1, h2⟩
      exact ⟨⟨h1, fun h3 => h.2.2 x h3 h2⟩, h2⟩
  have hsub : (NB \ st.safes) ∩ st.mines ⊆ (NB \ st.safes) ∩ M :=
    Finset.inter_subset_inter (Finset.Subset.refl _) h.2.1
  have hd : ((NB \ st.safes) \ st.mines) ∩ M =
      ((NB \ st.safes) ∩ M) \ ((NB \ st.safes) ∩ st.mines) := by
    ext x
    simp only [Finset.mem_inter, Finset.mem_sdiff]
    tauto
  rw [hd, Finset.card_sdiff hsub, Nat.cast_sub (Finset.card_le_card hsub), hXM, ← hcount]

theorem add_knowledge_sound {M : Finset Cell} {st : MinesweeperAI} {cell : Cell} {count : ℤ}
    (h : Sound M st) (hcell : cell ∉ M)
    (hcount : count = (((nbhd st.height st.width cell) ∩ M).card : ℤ)) :
    Sound M (st.add_knowledge cell count) := by
  unfold MinesweeperAI.add_knowledge MinesweeperAI.final_passes MinesweeperAI.turn_passes
    MinesweeperAI.sweep MinesweeperAI.resolve_all
  have h1 : Sound M (st.record_move cell) := h
  have h2 : Sound M ((st.record_move cell).ensure_safe cell) := by
    unfold MinesweeperAI.ensure_safe
    split_ifs with hin
    · exact h1
    · exact h1.ai_safe_of hcell
  have hdims := ensure_safe_dims (st.record_move cell) cell
  have hns : SentenceTrue M
      (((st.record_move cell).ensure_safe cell).new_sentence cell count) := by
    refine new_sentence_true h2 ?_
    rw [hdims.1, hdims.2]
    exact hcount
  have h3 : Sound M (((st.record_move cell).ensure_safe cell).append_new cell count) := by
    refine ⟨?_, h2.2.1, h2.2.2⟩
    intro s hs
    unfold MinesweeperAI.append_new at hs
    rcases List.mem_append.1 hs with hs | hs
    · exact h2.1 s hs
    · rw [List.mem_singleton.1 hs]
      exact hns
  exact runPass_sound _ _ _ (runPass_sound _ _ _
    (check_knowledge_sound (resolvePass_sound _ _ _ h3)))

theorem init_sound (M : Finset Cell) (height width : ℤ) :
    Sound M (MinesweeperAI.init height width) := by
  refine ⟨?_, ?_, ?_⟩
  · intro s hs
    exact absurd hs (List.not_mem_nil s)
  · exact Finset.empty_subset M
  · intro c hc
    exact absurd hc (Finset.not_mem_empty c)

theorem runTurns_sound {M : Finset Cell} {h w : ℤ} :
    ∀ (ts : List (Cell × ℤ)) (st : MinesweeperAI), st.height = h → st.width = w →
      Sound M st → consistentTurns M h w ts →
      Sound M (runTurns st ts) ∧ (runTurns st ts).height = h ∧ (runTurns st ts).width = w := by
  intro ts
  induction ts with
  | nil => exact fun st hh hw hS _ => ⟨hS, hh, hw⟩
  | cons t ts ih =>
    intro st hh hw hS hcons
    have hct := hcons t (List.mem_cons_self t ts)
    have hS1 : Sound M (st.add_knowledge t.1 t.2) := by
      refine add_knowledge_sound hS hct.1 ?_
      rw [hh, hw]
      exact hct.2
    have hd := add_knowledge_dims st t.1 t.2
    have := ih (st.add_knowledge t.1 t.2) (hd.1.trans hh) (hd.2.trans hw) hS1
      (fun u hu => hcons u (List.mem_cons_of_mem t hu))
    exact this

/-- C3 (confirmed).  Statement-count invariant: after any sequence of
`add_knowledge` turns whose revealed cells are non-mines and whose counts
match one fixed board (mine set `M`), every statement active in the
knowledge base satisfies `0 ≤ count ≤ |cells|`.  Since every prefix of a
consistent turn sequence is itself consistent, this covers every observable
point between turns.  The proof goes through the semantic invariant `Sound`:
every active statement stays TRUE of the fixed board. -/
theorem C3_count_invariant (M : Finset Cell) (h w : ℤ) (ts : List (Cell × ℤ))
    (hcons : consistentTurns M h w ts) :
    ∀ s ∈ (runTurns (MinesweeperAI.init h w) ts).knowledge,
      0 ≤ s.count ∧ s.count ≤ (s.cells.card : ℤ) := by
  have hS := (runTurns_sound ts (MinesweeperAI.init h w) rfl rfl
    (init_sound M h w) hcons).1
  intro s hs
  have ht := hS.1 s hs
  unfold SentenceTrue at ht
  have hle : (s.cells ∩ M).card ≤ s.cells.card :=
    Finset.card_le_card Finset.inter_subset_left
  omega

/-- Concrete instantiation of C3: a 1×3 board with one mine at `(0,2)` and
two consistent turns. -/
theorem C3_count_invariant_witness :
    consistentTurns ({(0, 2)} : Finset Cell) 1 3 [((0, 0), 0), ((0, 1), 1)] ∧
    (∀ s ∈ (runTurns (MinesweeperAI.init 1 3) [((0, 0), 0), ((0, 1), 1)]).knowledge,
      0 ≤ s.count ∧ s.count ≤ (s.cells.card : ℤ)) := by
  have hc : consistentTurns ({(0, 2)} : Finset Cell) 1 3 [((0, 0), 0), ((0, 1), 1)] := by
    unfold consistentTurns
    decide
  exact ⟨hc, C3_count_invariant ({(0, 2)} : Finset Cell) 1 3 [((0, 0), 0), ((0, 1), 1)] hc⟩

theorem applyOp_sound {M : Finset Cell} {h w : ℤ} {st : MinesweeperAI} {op : KBOp}
    (hh : st.height = h) (hw : st.width = w) (hS : Sound M st)
    (hc : opConsistent M h w op) : Sound M (applyOp st op) := by
  cases op with
  | add_op c n =>
    refine add_knowledge_sound hS hc.1 ?_
    rw [hh, hw]
    exact hc.2
  | mine_op c => exact hS.ai_mine_of hc
  | safe_op c => exact hS.ai_safe_of hc
  | safe_move_op => exact hS
  | random_move_op => exact hS

theorem applyOp_dims (st : MinesweeperAI) (op : KBOp) :
    (applyOp st op).height = st.height ∧ (applyOp st op).width = st.width := by
  cases op with
  | add_op c n => exact add_knowledge_dims st c n
  | mine_op c => exact ⟨rfl, rfl⟩
  | safe_op c => exact ⟨rfl, rfl⟩
  | safe_move_op => exact ⟨rfl, rfl⟩
  | random_move_op => exact ⟨rfl, rfl⟩

theorem runOps_sound {M : Finset Cell} {h w : ℤ} :
    ∀ (ops : List KBOp) (st : MinesweeperAI), st.height = h → st.width = w →
      Sound M st → (∀ op ∈ ops, opConsistent M h w op) →
      Sound M (ops.foldl applyOp st) := by
  intro ops
  induction ops with
  | nil => exact fun st _ _ hS _ => hS
  | cons op ops ih =>
    intro st hh hw hS hcons
    rw [List.foldl_cons]
    have hd := applyOp_dims st op
    exact ih (applyOp st op) (hd.1.trans hh) (hd.2.trans hw)
      (applyOp_sound hh hw hS (hcons op (List.mem_cons_self op ops)))
      (fun u hu => hcons u (List.mem_cons_of_mem op hu))

/-- C4 (confirmed).  Disjointness invariant: after any sequence of
knowledge-base operations from the initial state whose inputs are
consistent with one fixed board (mine set `M`), the confirmed safe set and
the confirmed mine set are disjoint.  Every prefix of a consistent
operation sequence is consistent, so this holds after every operation.
The proof again goes through `Sound`: confirmed mines lie in `M` and
confirmed safes lie outside it. -/
theorem C4_safes_mines_disjoint (M : Finset Cell) (h w : ℤ) (ops : List KBOp)
    (hcons : ∀ op ∈ ops, opConsistent M h w op) :
    (ops.foldl applyOp (MinesweeperAI.init h w)).safes ∩
      (ops.foldl applyOp (MinesweeperAI.init h w)).mines = ∅ := by
  have hS := runOps_sound ops (MinesweeperAI.init h w) rfl rfl (init_sound M h w) hcons
  rw [Finset.eq_empty_iff_forall_not_mem]
  intro c hc
  rcases Finset.mem_inter.1 hc with ⟨hsafe, hmine⟩
  exact hS.2.2 c hsafe (hS.2.1 hmine)

/-- Concrete instantiation of C4: a 1×3 board with one mine at `(0,2)` and a
mixed operation sequence (a direct safe mark, a turn, a direct mine mark,
and both move-choosers). -/
theorem C4_safes_mines_disjoint_witness :
    (∀ op ∈ [KBOp.safe_op (0, 0), KBOp.add_op (0, 1) 1, KBOp.mine_op (0, 2),
        KBOp.safe_move_op, KBOp.random_move_op],
      opConsistent ({(0, 2)} : Finset Cell) 1 3 op) ∧
    ([KBOp.safe_op (0, 0), KBOp.add_op (0, 1) 1, KBOp.mine_op (0, 2),
        KBOp.safe_move_op, KBOp.random_move_op].foldl applyOp
          (MinesweeperAI.init 1 3)).safes ∩
      ([KBOp.safe_op (0, 0), KBOp.add_op (0, 1) 1, KBOp.mine_op (0, 2),
        KBOp.safe_move_op, KBOp.random_move_op].foldl applyOp
          (MinesweeperAI.init 1 3)).mines = ∅ := by
  have hc : ∀ op ∈ [KBOp.safe_op (0, 0), KBOp.add_op (0, 1) 1, KBOp.mine_op (0, 2),
      KBOp.safe_move_op, KBOp.random_move_op],
      opConsistent ({(0, 2)} : Finset Cell) 1 3 op := by decide
  exact ⟨hc, C4_safes_mines_disjoint ({(0, 2)} : Finset Cell) 1 3 _ hc⟩

theorem lookupQ_append_some {m1 m2 : Cell_stat.AllCell} {c : Cell} {v : ℚ}
    (h : lookupQ m1 c = some v) : lookupQ (m1 ++ m2) c = some v := by
  induction m1 with
  | nil => simp [lookupQ] at h
  | cons e m1 ih =>
    simp only [lookupQ, List.cons_append] at h ⊢
    split_ifs at h ⊢ with he
    · exact h
    · exact ih h

theorem lookupQ_mapAdd (m : Cell_stat.AllCell) (c : Cell) (p : ℚ) (x : Cell) :
    lookupQ (m.map (fun e => if e.1 = c then (e.1, e.2 + p) else e)) x =
      (if x = c then Option.map (fun v => v + p) (lookupQ m x) else lookupQ m x) := by
  induction m with
  | nil =>
    simp only [List.map_nil, lookupQ]
    split_ifs <;> rfl
  | cons e m ih =>
    simp only [List.map_cons, lookupQ]
    by_cases hec : e.1 = c
    · rw [if_pos hec]
      by_cases hex : e.1 = x
      · have hxc : x = c := by rw [← hex, hec]
        rw [if_pos hex, if_pos hxc, if_pos hex]
        rfl
      · rw [if_neg hex, ih]
        by_cases hxc : x = c
        · rw [if_pos hxc, if_pos hxc, if_neg hex]
        · rw [if_neg hxc, if_neg hxc, if_neg hex]
    · rw [if_neg hec]
      by_cases hex : e.1 = x
      · have hxc : ¬ x = c := fun hh => hec (by rw [hex, hh])
        rw [if_pos hex, if_neg hxc, if_pos hex]
      · rw [if_neg hex, ih]
        by_cases hxc : x = c
        · rw [if_pos hxc, if_pos hxc, if_neg hex]
        · rw [if_neg hxc, if_neg hxc, if_neg hex]

theorem update_extends (m : Cell_stat.AllCell) (c : Cell) (p : ℚ) (hp : 0 ≤ p) :
    score_extends m (Cell_stat.update m c p) := by
  unfold Cell_stat.update
  split_ifs with hsome
  · constructor
    · refine ⟨[], ?_⟩
      rw [List.map_map, List.append_nil]
      apply List.map_congr_left
      intro e _
      by_cases hec : e.1 = c
      · rw [Function.comp_apply, if_pos hec]
      · rw [Function.comp_apply, if_neg hec]
    · intro x v hx
      rw [lookupQ_mapAdd]
      split_ifs with hxc
      · subst hxc
        rw [hx]
        exact ⟨v + p, rfl, by linarith⟩
      · exact ⟨v, hx, le_refl v⟩
  · constructor
    · exact ⟨[c], by rw [List.map_append]; rfl⟩
    · intro x v hx
      exact ⟨v, lookupQ_append_some hx, le_refl v⟩

theorem score_extends_refl (m : Cell_stat.AllCell) : score_extends m m :=
  ⟨⟨[], (List.append_nil _).symm⟩, fun _ v hv => ⟨v, hv, le_refl v⟩⟩

theorem score_extends_trans {m1 m2 m3 : Cell_stat.AllCell}
    (h1 : score_extends m1 m2) (h2 : score_extends m2 m3) : score_extends m1 m3 := by
  constructor
  · rcases h1.1 with ⟨e1, he1⟩
    rcases h2.1 with ⟨e2, he2⟩
    exact ⟨e1 ++ e2, by rw [he2, he1, List.append_assoc]⟩
  · intro c v hv
    rcases h1.2 c v hv with ⟨v2, hv2, hle2⟩
    rcases h2.2 c v2 hv2 with ⟨v3, hv3, hle3⟩
    exact ⟨v3, hv3, hle2.trans hle3⟩

theorem foldCells_extends (p : ℚ) (hp : 0 ≤ p) :
    ∀ (cs : List Cell) (m : Cell_stat.AllCell),
      score_extends m (cs.foldl (fun a x => Cell_stat.update a x p) m) := by
  intro cs
  induction cs with
  | nil => exact fun m => score_extends_refl m
  | cons x cs ih =>
    intro m
    rw [List.foldl_cons]
    exact score_extends_trans (update_extends m x p hp) (ih (Cell_stat.update m x p))

theorem scoreFold_extends :
    ∀ (l : List Sentence) (m : Cell_stat.AllCell), (∀ s ∈ l, 0 ≤ s.count) →
      score_extends m (scoreFold l m) := by
  intro l
  induction l with
  | nil => exact fun m _ => score_extends_refl m
  | cons s l ih =>
    intro m hpos
    rw [scoreFold, List.foldl_cons]
    have hp : 0 ≤ (s.count : ℚ) / (s.cells.card : ℚ) := by
      apply div_nonneg
      · exact_mod_cast hpos s (List.mem_cons_self s l)
      · exact_mod_cast Nat.zero_le s.cells.card
    exact score_extends_trans
      (foldCells_extends _ hp (cellsList s.cells) m)
      (ih _ (fun u hu => hpos u (List.mem_cons_of_mem s hu)))

/-- C9 (confirmed).  The score table consulted by `make_random_move` is the
class attribute `Cell_stat.all_cell`, one dictionary shared by every
`MinesweeperAI` instance (in the model it is state separate from, and
independent of, any agent state, threaded through every call).  No
operation of the module ever deletes one of its entries or resets it; a
completed `make_random_move` call (every active statement nonempty, counts
nonnegative as they are in every reachable consistent state) leaves every
existing key in place in its original position, only appends new keys, and
never decreases an accumulated score — so contributions from statements of
earlier turns and of other game instances persist into every later call. -/
theorem C9_score_accumulation (st : MinesweeperAI) (m : Cell_stat.AllCell)
    (hpos : ∀ s ∈ st.knowledge, 0 ≤ s.count) (_hne : ∀ s ∈ st.knowledge, s.cells ≠ ∅) :
    (∃ ext, (st.scorePass m).map Prod.fst = m.map Prod.fst ++ ext) ∧
    ∀ c v, lookupQ m c = some v → ∃ v2, lookupQ (st.scorePass m) c = some v2 ∧ v ≤ v2 :=
  scoreFold_extends st.knowledge m hpos

/-- Concrete instantiation of C9: the post-turn state of the first stale-map
game, applied to a dictionary already holding a score for `(0,0)`. -/
theorem C9_score_accumulation_witness :
    ((∀ s ∈ c5g1.knowledge, 0 ≤ s.count) ∧ (∀ s ∈ c5g1.knowledge, s.cells ≠ ∅)) ∧
    ((∃ ext, (c5g1.scorePass [((0, 0), 2)]).map Prod.fst =
        [((0, 0), (2 : ℚ))].map Prod.fst ++ ext) ∧
     ∀ c v, lookupQ [((0, 0), 2)] c = some v →
       ∃ v2, lookupQ (c5g1.scorePass [((0, 0), 2)]) c = some v2 ∧ v ≤ v2) :=
  ⟨⟨by decide, by decide⟩,
   C9_score_accumulation c5g1 [((0, 0), 2)] (by decide) (by decide)⟩

theorem place_mines_spec (target : ℕ) :
    ∀ (draws : List Cell) (st : Minesweeper),
      (∀ c, st.board c = true ↔ c ∈ st.mines) → st.mines.card ≤ target →
      ((∀ c, (Minesweeper.place_mines target draws st).board c = true ↔
          c ∈ (Minesweeper.place_mines target draws st).mines) ∧
       (Minesweeper.place_mines target draws st).mines ⊆ st.mines ∪ draws.toFinset ∧
       (target ≤ (draws.toFinset ∪ st.mines).card →
          (Minesweeper.place_mines target draws st).mines.card = target)) := by
  intro draws
  induction draws with
  | nil =>
    intro st hagree hcard
    refine ⟨hagree, ?_, ?_⟩
    · exact Finset.subset_union_left
    · intro hle
      simp only [List.toFinset_nil, Finset.empty_union] at hle
      show st.mines.card = target
      omega
  | cons d rest ih =>
    intro st hagree hcard
    rw [show Minesweeper.place_mines target (d :: rest) st =
        (if st.mines.card = target then st
         else if st.board d then Minesweeper.place_mines target rest st
         else Minesweeper.place_mines target rest
          { st with
              mines := insert d st.mines,
              board := fun c => if c = d then true else st.board c }) from rfl]
    split_ifs with htar hboard
    · exact ⟨hagree, Finset.subset_union_left, fun _ => htar⟩
    · have hd : d ∈ st.mines := (hagree d).1 hboard
      rcases ih st hagree hcard with ⟨a, b, c⟩
      refine ⟨a, ?_, ?_⟩
      · refine b.trans (Finset.union_subset_union (Finset.Subset.refl _) ?_)
        intro x hx
        simp only [List.toFinset_cons, Finset.mem_insert]
        exact Or.inr hx
      · intro hle
        refine c ?_
        have hsets : (d :: rest).toFinset ∪ st.mines = rest.toFinset ∪ st.mines := by
          ext x
          simp only [List.toFinset_cons, Finset.mem_union, Finset.mem_insert]
          constructor
          · rintro (⟨rfl | hx⟩ | hx)
            · exact Or.inr hd
            · exact Or.inl hx
            · exact Or.inr hx
          · rintro (hx | hx)
            · exact Or.inl (Or.inr hx)
            · exact Or.inr hx
        rw [hsets] at hle
        exact hle
    · have hd : d ∉ st.mines := fun h => hboard ((hagree d).2 h)
      have hagree2 : ∀ c, ((fun c => if c = d then true else st.board c) c = true ↔
          c ∈ insert d st.mines) := by
        intro c
        by_cases hcd : c = d
        · subst hcd
          simp
        · simp only [if_neg hcd, Finset.mem_insert]
          rw [hagree c]
          exact ⟨fun h => Or.inr h, fun h => h.resolve_left hcd⟩
      have hcard2 : (insert d st.mines).card ≤ target := by
        rw [Finset.card_insert_of_not_mem hd]
        omega
      have hrec := ih
        { st with
            mines := insert d st.mines,
            board := fun c => if c = d then true else st.board c } hagree2 hcard2
      obtain ⟨a, b, c⟩ := hrec
      refine ⟨a, ?_, ?_⟩
      · refine b.trans ?_
        intro x hx
        simp only [Finset.mem_union, Finset.mem_insert, List.toFinset_cons,
          List.mem_toFinset] at hx ⊢
        rcases hx with (rfl | hx) | hx
        · exact Or.inr (Or.inl rfl)
        · exact Or.inl hx
        · exact Or.inr (Or.inr hx)
      · intro hle
        refine c ?_
        have hsets : (rest.toFinset ∪ insert d st.mines) =
            ((d :: rest).toFinset ∪ st.mines) := by
          ext x
          simp only [List.toFinset_cons, Finset.mem_union, Finset.mem_insert]
          tauto
        rw [hsets]
        exact hle

/-- C10 (confirmed).  After `Minesweeper.__init__(height, width, mines)` —
with the random draws modelled as an explicit in-bounds stream rich enough
to complete the placement (which `mines ≤ height · width` guarantees with
probability one) — the board grid and the mine set agree (`is_mine(c)` is
true exactly for the cells of `mines`), the mine set holds exactly the
requested number of distinct in-bounds cells, and no later operation of the
`Minesweeper` class (`print`, `is_mine`, `nearby_mines`, `neighbourhood`,
`won`) changes the state. -/
theorem C10_board_init (height width m : ℕ) (draws : List Cell)
    (hin : ∀ d ∈ draws, 0 ≤ d.1 ∧ d.1 < (height : ℤ) ∧ 0 ≤ d.2 ∧ d.2 < (width : ℤ))
    (hm : m ≤ draws.toFinset.card) :
    (∀ c, (Minesweeper.init height width m draws).is_mine c = true ↔
       c ∈ (Minesweeper.init height width m draws).mines) ∧
    (Minesweeper.init height width m draws).mines.card = m ∧
    (∀ c ∈ (Minesweeper.init height width m draws).mines,
       0 ≤ c.1 ∧ c.1 < (height : ℤ) ∧ 0 ≤ c.2 ∧ c.2 < (width : ℤ)) ∧
    (∀ ops : List MsOp,
       ops.foldl Minesweeper.step (Minesweeper.init height width m draws) =
         Minesweeper.init height width m draws) := by
  have hbase : ∀ c : Cell, (false = true ↔ c ∈ (∅ : Finset Cell)) := by
    intro c
    simp
  have hspec := place_mines_spec m draws
    ⟨height, width, fun _ => false, ∅, ∅⟩ (fun c => hbase c) (by simp)
  refine ⟨hspec.1, ?_, ?_, ?_⟩
  · refine hspec.2.2 ?_
    simpa using hm
  · intro c hc
    have := hspec.2.1 hc
    simp only [Finset.empty_union, List.mem_toFinset] at this
    exact hin c this
  · intro ops
    induction ops with
    | nil => rfl
    | cons op ops ih =>
      rw [List.foldl_cons]
      have hstep : Minesweeper.step (Minesweeper.init height width m draws) op =
          Minesweeper.init height width m draws := by
        cases op <;> rfl
      rw [hstep, ih]

/-- Concrete instantiation of C10: a 2×2 board, two mines, a draw stream
with one duplicate. -/
theorem C10_board_init_witness :
    ((∀ d ∈ [((0 : ℤ), (0 : ℤ)), (0, 0), (1, 1)],
        0 ≤ d.1 ∧ d.1 < ((2 : ℕ) : ℤ) ∧ 0 ≤ d.2 ∧ d.2 < ((2 : ℕ) : ℤ)) ∧
      2 ≤ ([((0 : ℤ), (0 : ℤ)), (0, 0), (1, 1)]).toFinset.card) ∧
    ((∀ c, (Minesweeper.init 2 2 2 [((0 : ℤ), (0 : ℤ)), (0, 0), (1, 1)]).is_mine c = true ↔
        c ∈ (Minesweeper.init 2 2 2 [((0 : ℤ), (0 : ℤ)), (0, 0), (1, 1)]).mines) ∧
     (Minesweeper.init 2 2 2 [((0 : ℤ), (0 : ℤ)), (0, 0), (1, 1)]).mines.card = 2 ∧
     (∀ c ∈ (Minesweeper.init 2 2 2 [((0 : ℤ), (0 : ℤ)), (0, 0), (1, 1)]).mines,
        0 ≤ c.1 ∧ c.1 < ((2 : ℕ) : ℤ) ∧ 0 ≤ c.2 ∧ c.2 < ((2 : ℕ) : ℤ)) ∧
     (∀ ops : List MsOp,
        ops.foldl Minesweeper.step (Minesweeper.init 2 2 2 [((0 : ℤ), (0 : ℤ)), (0, 0), (1, 1)]) =
          Minesweeper.init 2 2 2 [((0 : ℤ), (0 : ℤ)), (0, 0), (1, 1)])) :=
  ⟨⟨by decide, by decide⟩,
   C10_board_init 2 2 2 [((0 : ℤ), (0 : ℤ)), (0, 0), (1, 1)] (by decide) (by decide)⟩

theorem lookupQ_append_none {m1 m2 : Cell_stat.AllCell} {c : Cell}
    (h : lookupQ m1 c = none) : lookupQ (m1 ++ m2) c = lookupQ m2 c := by
  induction m1 with
  | nil => rfl
  | cons e m1 ih =>
    have hstep : ∀ (l : List (Cell × ℚ)), lookupQ (e :: l) c =
        (if e.1 = c then some e.2 else lookupQ l c) := fun l => rfl
    by_cases he : e.1 = c
    · rw [hstep m1, if_pos he] at h
      exact absurd h (Option.some_ne_none e.2)
    · rw [hstep m1, if_neg he] at h
      show lookupQ (e :: (m1 ++ m2)) c = lookupQ m2 c
      rw [hstep (m1 ++ m2), if_neg he]
      exact ih h

theorem lookupQ_eq_none_iff {m : Cell_stat.AllCell} {c : Cell} :
    lookupQ m c = none ↔ c ∉ m.map Prod.fst := by
  induction m with
  | nil => simp [lookupQ]
  | cons e m ih =>
    simp only [lookupQ, List.map_cons, List.mem_cons]
    split_ifs with he
    · simp [he]
    · rw [ih]
      constructor
      · intro h1 h2
        rcases h2 with h2 | h2
        · exact he h2.symm
        · exact h1 h2
      · intro h1 h2
        exact h1 (Or.inr h2)

theorem lookupQ_update_self (m : Cell_stat.AllCell) (c : Cell) (p : ℚ) :
    lookupQ (Cell_stat.update m c p) c = some ((lookupQ m c).getD 0 + p) := by
  unfold Cell_stat.update
  split_ifs with h
  · rw [lookupQ_mapAdd, if_pos rfl]
    rcases Option.isSome_iff_exists.1 h with ⟨v, hv⟩
    rw [hv]
    rfl
  · have hnone : lookupQ m c = none := Option.not_isSome_iff_eq_none.1 h
    rw [lookupQ_append_none hnone, hnone]
    show (if c = c then some p else none) = some (0 + p)
    rw [if_pos rfl, zero_add]

theorem lookupQ_update_other {x c : Cell} (m : Cell_stat.AllCell) (p : ℚ) (hxc : x ≠ c) :
    lookupQ (Cell_stat.update m c p) x = lookupQ m x := by
  unfold Cell_stat.update
  split_ifs with h
  · rw [lookupQ_mapAdd, if_neg hxc]
  · cases hx : lookupQ m x with
    | none =>
      rw [lookupQ_append_none hx]
      show (if c = x then some p else none) = none
      rw [if_neg (fun he => hxc he.symm)]
    | some v => exact lookupQ_append_some hx

theorem lookupQ_foldCells (p : ℚ) :
    ∀ (cs : List Cell) (m : Cell_stat.AllCell) (x : Cell), cs.Nodup →
      lookupQ (cs.foldl (fun a c => Cell_stat.update a c p) m) x =
        (if x ∈ cs then some ((lookupQ m x).getD 0 + p) else lookupQ m x) := by
  intro cs
  induction cs with
  | nil =>
    intro m x _
    simp
  | cons c cs ih =>
    intro m x hnd
    rw [List.foldl_cons, ih (Cell_stat.update m c p) x (List.nodup_cons.1 hnd).2]
    by_cases hxc : x = c
    · subst hxc
      have hxcs : x ∉ cs := (List.nodup_cons.1 hnd).1
      rw [if_neg hxcs, if_pos (List.mem_cons_self x cs), lookupQ_update_self]
    · by_cases hxcs : x ∈ cs
      · rw [if_pos hxcs, if_pos (List.mem_cons_of_mem c hxcs), lookupQ_update_other m p hxc]
      · have : x ∉ c :: cs := by
          intro hx
          rcases List.mem_cons.1 hx with hx | hx
          · exact hxc hx
          · exact hxcs hx
        rw [if_neg hxcs, if_neg this, lookupQ_update_other m p hxc]

theorem scoreOf_cons (s : Sentence) (l : List Sentence) (x : Cell) :
    scoreOf (s :: l) x =
      (if x ∈ s.cells then (s.count : ℚ) / (s.cells.card : ℚ) else 0) + scoreOf l x := by
  unfold scoreOf
  rw [List.map_cons, List.sum_cons]

theorem lookupQ_scoreFold_some :
    ∀ (l : List Sentence) (m : Cell_stat.AllCell) (x : Cell) (v : ℚ),
      lookupQ m x = some v → lookupQ (scoreFold l m) x = some (v + scoreOf l x) := by
  intro l
  induction l with
  | nil =>
    intro m x v hv
    show lookupQ m x = _
    rw [hv]
    simp [scoreOf]
  | cons s l ih =>
    intro m x v hv
    rw [show scoreFold (s :: l) m = scoreFold l
      ((cellsList s.cells).foldl
        (fun a c => Cell_stat.update a c ((s.count : ℚ) / (s.cells.card : ℚ))) m) from rfl]
    by_cases hx : x ∈ s.cells
    · have h1 : lookupQ ((cellsList s.cells).foldl
          (fun a c => Cell_stat.update a c ((s.count : ℚ) / (s.cells.card : ℚ))) m) x =
          some (v + (s.count : ℚ) / (s.cells.card : ℚ)) := by
        rw [lookupQ_foldCells _ (cellsList s.cells) m x (cellsList_nodup s.cells),
          if_pos (mem_cellsList.2 hx), hv]
        rfl
      rw [ih _ x _ h1, scoreOf_cons, if_pos hx]
      congr 1
      ring
    · have h1 : lookupQ ((cellsList s.cells).foldl
          (fun a c => Cell_stat.update a c ((s.count : ℚ) / (s.cells.card : ℚ))) m) x =
          some v := by
        rw [lookupQ_foldCells _ (cellsList s.cells) m x (cellsList_nodup s.cells),
          if_neg (fun hc => hx (mem_cellsList.1 hc)), hv]
      rw [ih _ x _ h1, scoreOf_cons, if_neg hx, zero_add]

theorem lookupQ_scoreFold_none :
    ∀ (l : List Sentence) (m : Cell_stat.AllCell) (x : Cell),
      lookupQ m x = none → lookupQ (scoreFold l m) x =
        (if (∃ s ∈ l, x ∈ s.cells) then some (scoreOf l x) else none) := by
  intro l
  induction l with
  | nil =>
    intro m x hv
    show lookupQ m x = _
    simp [hv]
  | cons s l ih =>
    intro m x hv
    rw [show scoreFold (s :: l) m = scoreFold l
      ((cellsList s.cells).foldl
        (fun a c => Cell_stat.update a c ((s.count : ℚ) / (s.cells.card : ℚ))) m) from rfl]
    by_cases hx : x ∈ s.cells
    · have h1 : lookupQ ((cellsList s.cells).foldl
          (fun a c => Cell_stat.update a c ((s.count : ℚ) / (s.cells.card : ℚ))) m) x =
          some (0 + (s.count : ℚ) / (s.cells.card : ℚ)) := by
        rw [lookupQ_foldCells _ (cellsList s.cells) m x (cellsList_nodup s.cells),
          if_pos (mem_cellsList.2 hx), hv]
        rfl
      rw [lookupQ_scoreFold_some l _ x _ h1,
        if_pos (⟨s, List.mem_cons_self s l, hx⟩ : ∃ s2 ∈ s :: l, x ∈ s2.cells),
        scoreOf_cons, if_pos hx]
      congr 1
      ring
    · have h1 : lookupQ ((cellsList s.cells).foldl
          (fun a c => Cell_stat.update a c ((s.count : ℚ) / (s.cells.card : ℚ))) m) x =
          none := by
        rw [lookupQ_foldCells _ (cellsList s.cells) m x (cellsList_nodup s.cells),
          if_neg (fun hc => hx (mem_cellsList.1 hc))]
        exact hv
      rw [ih _ x h1]
      by_cases hex : ∃ s2 ∈ l, x ∈ s2.cells
      · rcases hex with ⟨s2, hs2, hxs2⟩
        rw [if_pos ⟨s2, hs2, hxs2⟩,
          if_pos (⟨s2, List.mem_cons_of_mem s hs2, hxs2⟩ : ∃ s3 ∈ s :: l, x ∈ s3.cells),
          scoreOf_cons, if_neg hx, zero_add]
      · rw [if_neg hex, if_neg ?hnc]
        case hnc =>
          rintro ⟨s2, hs2, hxs2⟩
          rcases List.mem_cons.1 hs2 with rfl | hs2
          · exact hx hxs2
          · exact hex ⟨s2, hs2, hxs2⟩

theorem update_keys_nodup {m : Cell_stat.AllCell} (c : Cell) (p : ℚ)
    (h : (m.map Prod.fst).Nodup) : ((Cell_stat.update m c p).map Prod.fst).Nodup := by
  unfold Cell_stat.update
  split_ifs with hs
  · have hkeys : (m.map (fun e => if e.1 = c then (e.1, e.2 + p) else e)).map Prod.fst =
        m.map Prod.fst := by
      rw [List.map_map]
      apply List.map_congr_left
      intro e _
      by_cases hec : e.1 = c
      · rw [Function.comp_apply, if_pos hec]
      · rw [Function.comp_apply, if_neg hec]
    rw [hkeys]
    exact h
  · rw [List.map_append]
    have hc : c ∉ m.map Prod.fst :=
      lookupQ_eq_none_iff.1 (Option.not_isSome_iff_eq_none.1 hs)
    simp only [List.map_cons, List.map_nil]
    rw [List.nodup_append]
    refine ⟨h, List.nodup_singleton c, ?_⟩
    intro x hx hxc
    rw [List.mem_singleton] at hxc
    exact hc (hxc ▸ hx)

theorem foldCells_keys_nodup (p : ℚ) :
    ∀ (cs : List Cell) (m : Cell_stat.AllCell), (m.map Prod.fst).Nodup →
      (((cs.foldl (fun a c => Cell_stat.update a c p) m)).map Prod.fst).Nodup := by
  intro cs
  induction cs with
  | nil => exact fun m h => h
  | cons c cs ih =>
    intro m h
    rw [List.foldl_cons]
    exact ih _ (update_keys_nodup c p h)

theorem scoreFold_keys_nodup :
    ∀ (l : List Sentence) (m : Cell_stat.AllCell), (m.map Prod.fst).Nodup →
      ((scoreFold l m).map Prod.fst).Nodup := by
  intro l
  induction l with
  | nil => exact fun m h => h
  | cons s l ih =>
    intro m h
    exact ih _ (foldCells_keys_nodup _ (cellsList s.cells) m h)

theorem lookupQ_some_mem : ∀ {m : Cell_stat.AllCell} {x : Cell} {v : ℚ},
    lookupQ m x = some v → (x, v) ∈ m := by
  intro m
  induction m with
  | nil => intro x v h; simp [lookupQ] at h
  | cons e m ih =>
    intro x v h
    rw [show lookupQ (e :: m) x = (if e.1 = x then some e.2 else lookupQ m x) from rfl] at h
    split_ifs at h with he
    · have hv : e.2 = v := Option.some.inj h
      have he2 : e = (x, v) := by
        cases e with
        | mk a b =>
          simp only at he hv
          rw [he, hv]
      rw [← he2]
      exact List.mem_cons_self e m
    · exact List.mem_cons_of_mem e (ih h)

theorem mem_lookupQ_nodup : ∀ {m : Cell_stat.AllCell} {x : Cell} {v : ℚ},
    (m.map Prod.fst).Nodup → (x, v) ∈ m → lookupQ m x = some v := by
  intro m
  induction m with
  | nil => intro x v _ h; simp at h
  | cons e m ih =>
    intro x v hnd hm
    have hnd2 : (m.map Prod.fst).Nodup := (List.nodup_cons.1 (by simpa using hnd)).2
    have hhd : e.1 ∉ m.map Prod.fst := (List.nodup_cons.1 (by simpa using hnd)).1
    rw [show lookupQ (e :: m) x = (if e.1 = x then some e.2 else lookupQ m x) from rfl]
    rcases List.mem_cons.1 hm with rfl | hm
    · rw [if_pos rfl]
    · split_ifs with he
      · exfalso
        apply hhd
        rw [he]
        exact List.mem_map_of_mem Prod.fst hm
      · exact ih hnd2 hm

theorem foldlMin_spec :
    ∀ (rest : List (Cell × ℚ)) (b : Cell × ℚ),
      ((rest.foldl (fun b2 e2 => if e2.2 < b2.2 then e2 else b2) b) = b ∨
        (rest.foldl (fun b2 e2 => if e2.2 < b2.2 then e2 else b2) b) ∈ rest) ∧
      (rest.foldl (fun b2 e2 => if e2.2 < b2.2 then e2 else b2) b).2 ≤ b.2 ∧
      (∀ e ∈ rest, (rest.foldl (fun b2 e2 => if e2.2 < b2.2 then e2 else b2) b).2 ≤ e.2) := by
  intro rest
  induction rest with
  | nil =>
    intro b
    refine ⟨Or.inl rfl, le_refl _, ?_⟩
    intro e he
    exact absurd he (List.not_mem_nil e)
  | cons e2 rest ih =>
    intro b
    rw [List.foldl_cons]
    rcases ih (if e2.2 < b.2 then e2 else b) with ⟨hmem, hle, hall⟩
    have hstep2 : (if e2.2 < b.2 then e2 else b).2 ≤ b.2 := by
      split_ifs with hlt
      · exact le_of_lt hlt
      · exact le_refl _
    have hstepe : (if e2.2 < b.2 then e2 else b).2 ≤ e2.2 := by
      split_ifs with hlt
      · exact le_refl _
      · exact le_of_not_lt hlt
    refine ⟨?_, hle.trans hstep2, ?_⟩
    · rcases hmem with hmem | hmem
      · rw [hmem]
        split_ifs with hlt
        · exact Or.inr (List.mem_cons_self e2 rest)
        · exact Or.inl rfl
      · exact Or.inr (List.mem_cons_of_mem e2 hmem)
    · intro e he
      rcases List.mem_cons.1 he with rfl | he
      · exact hle.trans hstepe
      · exact hall e he

theorem pythonMin_spec (m : Cell_stat.AllCell) (hne : m ≠ []) :
    ∃ e : Cell × ℚ, pythonMin m = some e.1 ∧ e ∈ m ∧ ∀ e2 ∈ m, e.2 ≤ e2.2 := by
  cases m with
  | nil => exact absurd rfl hne
  | cons e rest =>
    rcases foldlMin_spec rest e with ⟨hmem, hle, hall⟩
    refine ⟨rest.foldl (fun b2 e2 => if e2.2 < b2.2 then e2 else b2) e, ?_, ?_, ?_⟩
    · show pythonMin (e :: rest) =
        some ((rest.foldl (fun b2 e2 => if e2.2 < b2.2 then e2 else b2) e)).1
      rfl
    · rcases hmem with hmem | hmem
      · rw [hmem]
        exact List.mem_cons_self e rest
      · exact List.mem_cons_of_mem e hmem
    · intro e2 he2
      rcases List.mem_cons.1 he2 with rfl | he2
      · exact hle
      · exact hall e2 he2

set_option maxRecDepth 40000 in
/-- C5 (corrected) — counterexample.  The score dictionary is shared and
never reset, so a later call is not governed by the current statements
alone.  Game 1 (`c5g1`, a 1×4 game) leaves one unresolved statement over
`{(0,0),(0,2)}`; a completed `make_random_move` call stores scores for
those two cells in the shared dictionary (`c5map`).  Game 2 (`c5g2`, a
fresh 1×4 game) has EMPTY knowledge — no active statement references any
cell — and its first free row-major cell is `(0,1)`; the claim demands
`(0,1)`.  The call instead finds the stale dictionary nonempty and returns
one of its keys, `(0,0)` or `(0,2)` — not `(0,1)`. -/
theorem C5_counterexample :
    c5g2.knowledge = [] ∧
    c5g2.row_major_move = some (0, 1) ∧
    (∃ c m1, c5g2.make_random_move c5map = some (some c, m1) ∧
      (c = (0, 0) ∨ c = (0, 2)) ∧ c ≠ (0, 1)) := by
  have hk2 : c5g2.knowledge = [] := by decide
  have hku : c5g1.knowledge = [⟨({(0, 0), (0, 2)} : Finset Cell), 1⟩] := by decide
  have hcl : cellsList ({(0, 0), (0, 2)} : Finset Cell) = [(0, 0), (0, 2)] := by decide
  have hkeys : c5map.map Prod.fst = [((0 : ℤ), (0 : ℤ)), ((0 : ℤ), (2 : ℤ))] := by
    rw [show c5map = scoreFold c5g1.knowledge [] from rfl, hku]
    rfl
  have hmne : c5map ≠ [] := by
    intro h
    rw [h] at hkeys
    simp at hkeys
  have heval : c5g2.make_random_move c5map = some (pythonMin c5map, c5map) := by
    simp only [MinesweeperAI.make_random_move, MinesweeperAI.scorePass, hk2]
    rw [if_pos (by rfl : (([] : List Sentence).all (fun s => decide (s.cells ≠ ∅))) = true)]
    rw [show scoreFold [] c5map = c5map from rfl, if_pos hmne]
  obtain ⟨e, hmin, hmem, hminle⟩ := pythonMin_spec c5map hmne
  have hkey : e.1 ∈ c5map.map Prod.fst := List.mem_map_of_mem Prod.fst hmem
  rw [hkeys] at hkey
  have hor : e.1 = (0, 0) ∨ e.1 = (0, 2) := by
    rcases List.mem_cons.1 hkey with h | h
    · exact Or.inl h
    · exact Or.inr (List.mem_singleton.1 h)
  refine ⟨hk2, by decide, e.1, c5map, ?_, hor, ?_⟩
  · rw [heval, hmin]
  · rcases hor with h | h <;> rw [h] <;> decide

/-- C5 (corrected) — amended claim.  For every call to `make_random_move`
that starts with an EMPTY shared score dictionary (as on the first call of
the process) and whose active statements all have nonempty cell sets (so
that the call completes): when some active statement references a cell,
the returned cell is referenced by an active statement and minimises the
per-call score `specScore` — the sum, over active statements containing
the cell, of `count / |cells|`; when no active statement references any
cell, the call returns the first row-major cell not in
`mines ∪ moves_made`, or the no-move value. -/
theorem C5_random_move (st : MinesweeperAI)
    (hne : ∀ s ∈ st.knowledge, s.cells ≠ ∅) :
    (st.knowledge = [] → st.make_random_move [] = some (st.row_major_move, [])) ∧
    (st.knowledge ≠ [] →
      ∃ c m1, st.make_random_move [] = some (some c, m1) ∧
        (∃ s ∈ st.knowledge, c ∈ s.cells) ∧
        ∀ c2, (∃ s ∈ st.knowledge, c2 ∈ s.cells) → specScore st c ≤ specScore st c2) := by
  constructor
  · intro h0
    simp only [MinesweeperAI.make_random_move, MinesweeperAI.scorePass, h0]
    rfl
  · intro hne0
    have hall : (st.knowledge.all (fun s => decide (s.cells ≠ ∅))) = true := by
      rw [List.all_eq_true]
      intro s hs
      exact decide_eq_true (hne s hs)
    obtain ⟨s0, l0, hk⟩ := List.exists_cons_of_ne_nil hne0
    have hs0 : s0 ∈ st.knowledge := by
      rw [hk]
      exact List.mem_cons_self s0 l0
    obtain ⟨c0, hc0⟩ := Finset.nonempty_iff_ne_empty.2 (hne s0 hs0)
    have href0 : ∃ s ∈ st.knowledge, c0 ∈ s.cells := ⟨s0, hs0, hc0⟩
    have hlc0 : lookupQ (scoreFold st.knowledge []) c0 =
        some (scoreOf st.knowledge c0) := by
      rw [lookupQ_scoreFold_none st.knowledge [] c0 rfl, if_pos href0]
    have hM1ne : scoreFold st.knowledge [] ≠ [] := by
      intro h
      rw [h] at hlc0
      simp [lookupQ] at hlc0
    have heval : st.make_random_move [] =
        some (pythonMin (scoreFold st.knowledge []), scoreFold st.knowledge []) := by
      simp only [MinesweeperAI.make_random_move, MinesweeperAI.scorePass]
      rw [if_pos hall, if_pos hM1ne]
    have hnd : ((scoreFold st.knowledge []).map Prod.fst).Nodup :=
      scoreFold_keys_nodup st.knowledge [] (by simp)
    obtain ⟨e, hmin, hmem, hminle⟩ := pythonMin_spec (scoreFold st.knowledge []) hM1ne
    have hle : lookupQ (scoreFold st.knowledge []) e.1 = some e.2 := by
      refine mem_lookupQ_nodup hnd ?_
      rwa [Prod.mk.eta]
    have href : ∃ s ∈ st.knowledge, e.1 ∈ s.cells := by
      by_contra h
      rw [lookupQ_scoreFold_none st.knowledge [] e.1 rfl, if_neg h] at hle
      simp at hle
    have he2 : e.2 = scoreOf st.knowledge e.1 := by
      have h2 : lookupQ (scoreFold st.knowledge []) e.1 =
          some (scoreOf st.knowledge e.1) := by
        rw [lookupQ_scoreFold_none st.knowledge [] e.1 rfl, if_pos href]
      rw [h2] at hle
      exact (Option.some.inj hle).symm
    refine ⟨e.1, scoreFold st.knowledge [], ?_, href, ?_⟩
    · rw [heval, hmin]
    · intro c2 href2
      have hlc2 : lookupQ (scoreFold st.knowledge []) c2 =
          some (scoreOf st.knowledge c2) := by
        rw [lookupQ_scoreFold_none st.knowledge [] c2 rfl, if_pos href2]
      have hmem2 : (c2, scoreOf st.knowledge c2) ∈ scoreFold st.knowledge [] :=
        lookupQ_some_mem hlc2
      have hfin := hminle _ hmem2
      show specScore st e.1 ≤ specScore st c2
      unfold specScore
      rw [← he2]
      exact hfin

/-- Concrete instantiation of the amended C5 on the post-turn state of
game 1 (one active two-cell statement). -/
theorem C5_random_move_witness :
    (∀ s ∈ c5g1.knowledge, s.cells ≠ ∅) ∧
    ((c5g1.knowledge = [] → c5g1.make_random_move [] = some (c5g1.row_major_move, [])) ∧
     (c5g1.knowledge ≠ [] →
       ∃ c m1, c5g1.make_random_move [] = some (some c, m1) ∧
         (∃ s ∈ c5g1.knowledge, c ∈ s.cells) ∧
         ∀ c2, (∃ s ∈ c5g1.knowledge, c2 ∈ s.cells) →
           specScore c5g1 c ≤ specScore c5g1 c2)) :=
  ⟨by decide, C5_random_move c5g1 (by decide)⟩
